import Mathlib

/-!
Verification development for the AI gateway backend
(`src/platform/src/python-backend`): the admission policy engine
(`services/policy_engine.py`), the ML routing engine
(`services/ml_routing_engine.py`), the cross-provider failover logic
(`services/cross_provider_intelligence.py`), the OpenAI proxy dispatcher
(`proxy/ai_providers.py`), the security scanner
(`services/ai_security_scanner.py`) and the live-monitoring broadcast
layer (`services/websocket_service.py`).

Python floats are modelled as rationals, Python dict fields as `Option`
fields (absent key = `none`), fallible code as `Except`.  Calls into
collaborators that are external to the repository (the accounting ledger
behind `_get_current_spend`, the wall clock, the `re` regex module, the
outbound HTTP transport and the per-connection websocket sends) are
modelled as explicit parameters.  Purely informational free-text
`message` fields of result dicts are elided.
-/

namespace Pluto

/-- Python exceptions that the embedded code can raise: a `KeyError` from
a mandatory dict subscript, or an `re.error` from compiling an invalid
regular expression. -/
inductive PyErr where
  | keyError (key : String)
  | reError (src : String)
  deriving DecidableEq, Repr

/-- A Python regular expression as handed to `re.search`.  The `re`
module is external to the repository: a pattern either compiles, and
then denotes a case-insensitive search predicate over the subject
string, or raises `re.error` when it is used. -/
inductive PyPattern where
  | valid (search : String → Bool)
  | invalid (src : String)

/-- Embedding of `re.search(pattern, content, re.IGNORECASE)`: raises
`re.error` on an invalid pattern, otherwise reports whether any match
exists. -/
def reSearch (p : PyPattern) (content : String) : Except PyErr Bool :=
  match p with
  | .valid f => .ok (f content)
  | .invalid src => .error (.reError src)

/-- Decides whether `needle` occurs as a contiguous substring of the
character list, mirroring the Python `in` operator on strings. -/
def charsContains (needle : List Char) : List Char → Bool
  | [] => needle.isEmpty
  | c :: rest => List.isPrefixOf needle (c :: rest) || charsContains needle rest

/-- Python `needle in hay` on strings. -/
def strContains (hay needle : String) : Bool :=
  charsContains needle.toList hay.toList

/-- Python `x in l` where `x` may be `None` (`None` is never an element
of a list of strings). -/
def optMem (x : Option String) (l : List String) : Bool :=
  match x with
  | some s => l.contains s
  | none => false

/-- A policy dict as read by `services/policy_engine.py`.  Every key the
engine accesses is a field; `none` models an absent key.  `active`
models `policy.get("active", True)`. -/
structure Policy where
  id : Option String := none
  type : Option String := none
  action : Option String := none
  active : Bool := true
  budget_limit : Option ℚ := none
  time_window : Option String := none
  scope : Option String := none
  blocked_patterns : Option (List PyPattern) := none
  blocked_keywords : Option (List String) := none
  allowed_users : Option (List String) := none
  blocked_users : Option (List String) := none
  allowed_teams : Option (List String) := none
  blocked_teams : Option (List String) := none
  blocked_models : Option (List String) := none
  allowed_models : Option (List String) := none
  max_tokens : Option ℚ := none
  allowed_hours : Option (List ℕ) := none
  blocked_days : Option (List String) := none

/-- The request dict as read by the policy engine: the `content` field
of each message (if the message is a dict carrying one), the optional
`prompt`, `model` and `max_tokens` keys. -/
structure RequestData where
  model : Option String := none
  max_tokens : Option ℚ := none
  messages : List (Option String) := []
  prompt : Option String := none

/-- A violation dict produced by the `_check_*` helpers.  Each carries
the rule id, the violation kind (the `type` key) and the action.  The
free-text `message` and kind-specific extra keys are elided. -/
structure Violation where
  policy_id : String
  vtype : String
  action : String
  deriving DecidableEq, Repr

/-- The dict returned by `evaluate_request` (timestamp elided). -/
structure EvalResult where
  action : String
  allowed : Bool
  violations : List Violation
  deriving DecidableEq, Repr

/-- External collaborators consumed by the policy engine: the accounting
ledger read (`_get_current_spend(user_id, team_id, time_window, scope)`,
stubbed at `$0.05` in the source, specified as the external Ledger in
the spec) and the wall clock (`datetime.utcnow()` hour and lowercase
weekday name). -/
structure PolicyEnv where
  getCurrentSpend : Option String → Option String → String → String → ℚ
  nowHour : ℕ
  nowDay : String

/-- The source's mock body of `_get_current_spend`, which returns a flat
`$0.05` for every scope and window. -/
def mockGetCurrentSpend : Option String → Option String → String → String → ℚ :=
  fun _ _ _ _ => 1 / 20

/-- Building a violation dict evaluates `policy["id"]` first; a missing
`id` key raises `KeyError`. -/
def mkViolation (p : Policy) (vtype act : String) : Except PyErr (Option Violation) :=
  match p.id with
  | some pid => .ok (some ⟨pid, vtype, act⟩)
  | none => .error (.keyError "id")

/-- Embedding of `PolicyEngine._extract_content`: concatenates message
contents, then the `prompt` key twice (the source appends it under both
its "Direct prompt" and "Anthropic format" branches), then strips. -/
def extractContent (req : RequestData) : String :=
  let c := req.messages.foldl (fun acc m =>
    match m with
    | some s => acc ++ s ++ " "
    | none => acc) ""
  let c := match req.prompt with
    | some pr => c ++ pr ++ " "
    | none => c
  let c := match req.prompt with
    | some pr => c ++ pr ++ " "
    | none => c
  c.trim

/-- Embedding of `PolicyEngine._check_budget_policy`. -/
def checkBudgetPolicy (env : PolicyEnv) (p : Policy) (userId teamId : Option String)
    (estimatedCost : ℚ) : Except PyErr (Option Violation) :=
  let budgetLimit := p.budget_limit.getD 0
  let timeWindow := p.time_window.getD "daily"
  let scope := p.scope.getD "user"
  let currentSpend := env.getCurrentSpend userId teamId timeWindow scope
  if currentSpend + estimatedCost > budgetLimit then
    mkViolation p "budget" (p.action.getD "warn")
  else
    .ok none

/-- Sequential scan of `blocked_patterns` with `re.search`, faithful to
the loop order: an invalid pattern raises before later patterns are
tried, and the first match wins. -/
def findBlockedPattern (content : String) : List PyPattern → Except PyErr Bool
  | [] => .ok false
  | p :: rest =>
    match reSearch p content with
    | .error e => .error e
    | .ok true => .ok true
    | .ok false => findBlockedPattern content rest

/-- Embedding of `PolicyEngine._check_content_policy`: patterns first
(default action `block`), then lowercase keyword containment (default
action `warn`). -/
def checkContentPolicy (p : Policy) (req : RequestData) : Except PyErr (Option Violation) :=
  let content := extractContent req
  match findBlockedPattern content (p.blocked_patterns.getD []) with
  | .error e => .error e
  | .ok true => mkViolation p "content" (p.action.getD "block")
  | .ok false =>
    if (p.blocked_keywords.getD []).any (fun kw => strContains content.toLower kw.toLower) then
      mkViolation p "content" (p.action.getD "warn")
    else
      .ok none

/-- Embedding of `PolicyEngine._check_user_policy`.  Every branch passes
the literal `PolicyAction.BLOCK.value`, not the rule's configured
action. -/
def checkUserPolicy (p : Policy) (userId teamId : Option String) :
    Except PyErr (Option Violation) :=
  let allowedUsers := p.allowed_users.getD []
  let blockedUsers := p.blocked_users.getD []
  let allowedTeams := p.allowed_teams.getD []
  let blockedTeams := p.blocked_teams.getD []
  if !blockedUsers.isEmpty && optMem userId blockedUsers then
    mkViolation p "user" "block"
  else if !blockedTeams.isEmpty && optMem teamId blockedTeams then
    mkViolation p "user" "block"
  else if !allowedUsers.isEmpty && !optMem userId allowedUsers then
    mkViolation p "user" "block"
  else if !allowedTeams.isEmpty && !optMem teamId allowedTeams then
    mkViolation p "user" "block"
  else
    .ok none

/-- Embedding of `PolicyEngine._check_model_policy`.  The deny-list and
allow-list branches pass the literal `block`; only the `max_tokens`
branch uses `policy.get("action", WARN)`.  The Python truthiness test
`if max_tokens` is false for both a missing key and a zero value. -/
def checkModelPolicy (p : Policy) (req : RequestData) : Except PyErr (Option Violation) :=
  let blockedModels := p.blocked_models.getD []
  let allowedModels := p.allowed_models.getD []
  let model := req.model.getD ""
  if !blockedModels.isEmpty && blockedModels.contains model then
    mkViolation p "model" "block"
  else if !allowedModels.isEmpty && !allowedModels.contains model then
    mkViolation p "model" "block"
  else
    match p.max_tokens with
    | some mt =>
      if mt ≠ 0 ∧ req.max_tokens.getD 0 > mt then
        mkViolation p "model" (p.action.getD "warn")
      else
        .ok none
    | none => .ok none

/-- Embedding of `PolicyEngine._check_time_policy` with the clock passed
explicitly. -/
def checkTimePolicy (p : Policy) (nowHour : ℕ) (nowDay : String) :
    Except PyErr (Option Violation) :=
  let allowedHours := p.allowed_hours.getD []
  let blockedDays := p.blocked_days.getD []
  if !allowedHours.isEmpty && !allowedHours.contains nowHour then
    mkViolation p "time" (p.action.getD "block")
  else if !blockedDays.isEmpty && blockedDays.contains nowDay then
    mkViolation p "time" (p.action.getD "block")
  else
    .ok none

/-- Embedding of `PolicyEngine._check_policy`: dispatch on the rule's
`type` key; an unknown or missing kind yields no violation. -/
def checkPolicy (env : PolicyEnv) (p : Policy) (req : RequestData)
    (userId teamId : Option String) (estimatedCost : ℚ) : Except PyErr (Option Violation) :=
  match p.type with
  | some "budget" => checkBudgetPolicy env p userId teamId estimatedCost
  | some "content" => checkContentPolicy p req
  | some "user" => checkUserPolicy p userId teamId
  | some "model" => checkModelPolicy p req
  | some "time" => checkTimePolicy p env.nowHour env.nowDay
  | _ => .ok none

/-- The violation-collecting loop of `evaluate_request`: inactive rules
are skipped, violations are appended in rule order, and an exception
raised by any check aborts the whole evaluation (the source has no
exception handling). -/
def collectViolations (env : PolicyEnv) (req : RequestData) (userId teamId : Option String)
    (estimatedCost : ℚ) : List Policy → Except PyErr (List Violation)
  | [] => .ok []
  | p :: rest =>
    if p.active then
      match checkPolicy env p req userId teamId estimatedCost with
      | .error e => .error e
      | .ok none => collectViolations env req userId teamId estimatedCost rest
      | .ok (some v) =>
        match collectViolations env req userId teamId estimatedCost rest with
        | .error e => .error e
        | .ok vs => .ok (v :: vs)
    else
      collectViolations env req userId teamId estimatedCost rest

/-- The final-action combination step of `evaluate_request`: `block` if
any collected action is `block`, else `warn` if any is `warn`, else
`allow`. -/
def finalAction (violations : List Violation) : String :=
  if (violations.map (fun v => v.action)).contains "block" then "block"
  else if (violations.map (fun v => v.action)).contains "warn" then "warn"
  else "allow"

/-- Embedding of `PolicyEngine.evaluate_request` (timestamp elided):
collects violations over the active rules, combines their actions, and
sets `allowed` to `final_action != "block"`. -/
def evaluateRequest (env : PolicyEnv) (policies : List Policy) (req : RequestData)
    (userId teamId : Option String) (estimatedCost : ℚ) : Except PyErr EvalResult :=
  match collectViolations env req userId teamId estimatedCost policies with
  | .error e => .error e
  | .ok vs => .ok ⟨finalAction vs, finalAction vs != "block", vs⟩

/-- If an active rule of the set reports a violation and the whole
collection pass succeeds, that violation is among the collected ones. -/
theorem collect_mem_of_check (env : PolicyEnv) (req : RequestData) (u t : Option String)
    (c : ℚ) (ps : List Policy) :
    ∀ (vs : List Violation) (p : Policy) (v : Violation),
      p ∈ ps → p.active = true →
      checkPolicy env p req u t c = .ok (some v) →
      collectViolations env req u t c ps = .ok vs → v ∈ vs := by
  induction ps with
  | nil =>
    intro vs p v hp _ _ _
    exact absurd hp (List.not_mem_nil p)
  | cons q rest ih =>
    intro vs p v hp hact hchk hcol
    unfold collectViolations at hcol
    rcases List.mem_cons.mp hp with rfl | hp'
    · rw [if_pos hact, hchk] at hcol
      cases hrest : collectViolations env req u t c rest with
      | error e => rw [hrest] at hcol; exact Except.noConfusion hcol
      | ok ws => rw [hrest] at hcol; cases hcol; exact List.mem_cons_self ..
    · by_cases hqa : q.active = true
      · rw [if_pos hqa] at hcol
        cases hq : checkPolicy env q req u t c with
        | error e => rw [hq] at hcol; exact Except.noConfusion hcol
        | ok o =>
          rw [hq] at hcol
          cases o with
          | none => exact ih vs p v hp' hact hchk hcol
          | some w =>
            cases hrest : collectViolations env req u t c rest with
            | error e => rw [hrest] at hcol; exact Except.noConfusion hcol
            | ok ws =>
              rw [hrest] at hcol; cases hcol
              exact List.mem_cons_of_mem _ (ih ws p v hp' hact hchk hrest)
      · rw [if_neg hqa] at hcol
        exact ih vs p v hp' hact hchk hcol

/-- Every collected violation stems from some active rule of the set. -/
theorem check_of_collect_mem (env : PolicyEnv) (req : RequestData) (u t : Option String)
    (c : ℚ) (ps : List Policy) :
    ∀ (vs : List Violation) (v : Violation),
      collectViolations env req u t c ps = .ok vs → v ∈ vs →
      ∃ p, p ∈ ps ∧ p.active = true ∧ checkPolicy env p req u t c = .ok (some v) := by
  induction ps with
  | nil =>
    intro vs v hcol hv
    unfold collectViolations at hcol
    cases hcol
    exact absurd hv (List.not_mem_nil v)
  | cons q rest ih =>
    intro vs v hcol hv
    unfold collectViolations at hcol
    by_cases hqa : q.active = true
    · rw [if_pos hqa] at hcol
      cases hq : checkPolicy env q req u t c with
      | error e => rw [hq] at hcol; exact Except.noConfusion hcol
      | ok o =>
        rw [hq] at hcol
        cases o with
        | none =>
          obtain ⟨p, hp, hpa, hpc⟩ := ih vs v hcol hv
          exact ⟨p, List.mem_cons_of_mem _ hp, hpa, hpc⟩
        | some w =>
          cases hrest : collectViolations env req u t c rest with
          | error e => rw [hrest] at hcol; exact Except.noConfusion hcol
          | ok ws =>
            rw [hrest] at hcol; cases hcol
            rcases List.mem_cons.mp hv with rfl | hv'
            · exact ⟨q, List.mem_cons_self .., hqa, hq⟩
            · obtain ⟨p, hp, hpa, hpc⟩ := ih ws v hrest hv'
              exact ⟨p, List.mem_cons_of_mem _ hp, hpa, hpc⟩
    · rw [if_neg hqa] at hcol
      obtain ⟨p, hp, hpa, hpc⟩ := ih vs v hcol hv
      exact ⟨p, List.mem_cons_of_mem _ hp, hpa, hpc⟩

/-- Action-list membership used by the combination step of
`evaluate_request`. -/
theorem contains_action_iff (vs : List Violation) (a : String) :
    ((vs.map (fun v => v.action)).contains a = true) ↔ ∃ v ∈ vs, v.action = a := by
  simp

/-- Combination step, `block` case. -/
theorem finalAction_eq_block (vs : List Violation) (h : ∃ v ∈ vs, v.action = "block") :
    finalAction vs = "block" := by
  unfold finalAction
  rw [if_pos ((contains_action_iff vs "block").mpr h)]

/-- Combination step, `warn` case. -/
theorem finalAction_eq_warn (vs : List Violation) (hnb : ¬ ∃ v ∈ vs, v.action = "block")
    (hw : ∃ v ∈ vs, v.action = "warn") : finalAction vs = "warn" := by
  unfold finalAction
  rw [if_neg, if_pos ((contains_action_iff vs "warn").mpr hw)]
  intro hT
  exact hnb ((contains_action_iff vs "block").mp hT)

/-- Combination step, `allow` case. -/
theorem finalAction_eq_allow (vs : List Violation) (hnb : ¬ ∃ v ∈ vs, v.action = "block")
    (hnw : ¬ ∃ v ∈ vs, v.action = "warn") : finalAction vs = "allow" := by
  unfold finalAction
  rw [if_neg, if_neg]
  · intro hT
    exact hnw ((contains_action_iff vs "warn").mp hT)
  · intro hT
    exact hnb ((contains_action_iff vs "block").mp hT)

/-- C1: the overall result of `evaluate_request` is action `block` with
`allowed = false` if any returned violation carries action `block`;
otherwise action `warn` with `allowed = true` if any carries `warn`;
otherwise `allow`.  Consequently (last conjunct) a rule set containing
an active rule that reports a `block` violation can never evaluate to
`allow`: adding such a rule to a previously-`allow` set cannot leave the
result `allow`. -/
theorem evaluate_combination_block_dominates (env : PolicyEnv) (ps : List Policy)
    (req : RequestData) (u t : Option String) (c : ℚ) (r : EvalResult)
    (hr : evaluateRequest env ps req u t c = .ok r) :
    ((∃ v ∈ r.violations, v.action = "block") → r.action = "block" ∧ r.allowed = false) ∧
    ((¬ ∃ v ∈ r.violations, v.action = "block") → (∃ v ∈ r.violations, v.action = "warn") →
      r.action = "warn" ∧ r.allowed = true) ∧
    ((¬ ∃ v ∈ r.violations, v.action = "block") → (¬ ∃ v ∈ r.violations, v.action = "warn") →
      r.action = "allow" ∧ r.allowed = true) ∧
    (∀ p v, p ∈ ps → p.active = true → checkPolicy env p req u t c = .ok (some v) →
      v.action = "block" → r.action = "block" ∧ r.allowed = false) := by
  unfold evaluateRequest at hr
  cases hcol : collectViolations env req u t c ps with
  | error e => rw [hcol] at hr; exact Except.noConfusion hr
  | ok vs =>
    rw [hcol] at hr
    cases hr
    refine ⟨?_, ?_, ?_, ?_⟩
    · intro h
      have hb := finalAction_eq_block vs h
      refine ⟨hb, ?_⟩
      show (finalAction vs != "block") = false
      rw [hb]
      decide
    · intro hnb hw
      have hb := finalAction_eq_warn vs hnb hw
      refine ⟨hb, ?_⟩
      show (finalAction vs != "block") = true
      rw [hb]
      decide
    · intro hnb hnw
      have hb := finalAction_eq_allow vs hnb hnw
      refine ⟨hb, ?_⟩
      show (finalAction vs != "block") = true
      rw [hb]
      decide
    · intro p v hp hact hchk hva
      have hmem := collect_mem_of_check env req u t c ps vs p v hp hact hchk hcol
      have hb := finalAction_eq_block vs ⟨v, hmem, hva⟩
      refine ⟨hb, ?_⟩
      show (finalAction vs != "block") = false
      rw [hb]
      decide

/-- Demo clock and ledger environment: noon on a Monday, spend read from
the source's mock. -/
def envDemo : PolicyEnv := ⟨mockGetCurrentSpend, 12, "monday"⟩

/-- A user rule that deny-lists the user `bob`. -/
def blockBobPolicy : Policy :=
  { id := some "p1", type := some "user", blocked_users := some ["bob"] }

/-- A request dict with no keys the policy engine reads. -/
def emptyRequest : RequestData := {}

/-- Witness for C1 at a concrete input: one active user rule deny-listing
`bob` makes the evaluation of a request by `bob` come out `block` and
not allowed. -/
theorem evaluate_combination_block_dominates_witness :
    evaluateRequest envDemo [blockBobPolicy] emptyRequest (some "bob") none 0 =
      .ok ⟨"block", false, [⟨"p1", "user", "block"⟩]⟩ ∧
    (EvalResult.mk "block" false [⟨"p1", "user", "block"⟩]).action = "block" ∧
    (EvalResult.mk "block" false [⟨"p1", "user", "block"⟩]).allowed = false := by
  have he : evaluateRequest envDemo [blockBobPolicy] emptyRequest (some "bob") none 0 =
      .ok ⟨"block", false, [⟨"p1", "user", "block"⟩]⟩ := by
    norm_num [evaluateRequest, collectViolations, checkPolicy, checkUserPolicy, mkViolation,
      finalAction, optMem, envDemo, blockBobPolicy, emptyRequest]
  refine ⟨he, ?_⟩
  have h := evaluate_combination_block_dominates envDemo [blockBobPolicy] emptyRequest
    (some "bob") none 0 ⟨"block", false, [⟨"p1", "user", "block"⟩]⟩ he
  exact h.1 ⟨⟨"p1", "user", "block"⟩, by simp, rfl⟩

/-- A budget rule dict lacking the `id` key, as an administrative client
could submit it; the engine itself never validates rule shape. -/
def malformedBudgetPolicy : Policy := { type := some "budget", budget_limit := some 0 }

/-- C2 counterexample: `evaluate_request` has no exception handling at
all, so a malformed rule is not skipped.  A budget rule missing its `id`
key makes the evaluation raise `KeyError` (the violation dict literal
subscripts `policy["id"]`), aborting the whole evaluation instead of
continuing with the remaining rules. -/
theorem evaluate_raises_keyError_on_malformed_rule :
    evaluateRequest envDemo [malformedBudgetPolicy] emptyRequest none none 1 =
      .error (.keyError "id") := by
  norm_num [evaluateRequest, collectViolations, checkPolicy, checkBudgetPolicy, mkViolation,
    envDemo, malformedBudgetPolicy, mockGetCurrentSpend, emptyRequest]

/-- C2 amended: `evaluate_request` never catches: an exception raised
while checking an active rule propagates to the caller and the rules
after it are not evaluated; in particular a rule that triggers a
violation but lacks the `id` key raises `KeyError`. -/
theorem evaluate_propagates_rule_errors :
    (∀ (env : PolicyEnv) (p : Policy) (ps : List Policy) (req : RequestData)
       (u t : Option String) (c : ℚ) (e : PyErr),
       p.active = true → checkPolicy env p req u t c = .error e →
       evaluateRequest env (p :: ps) req u t c = .error e) ∧
    (∀ (env : PolicyEnv) (p : Policy) (u t : Option String) (c : ℚ),
       p.id = none →
       env.getCurrentSpend u t (p.time_window.getD "daily") (p.scope.getD "user") + c >
         p.budget_limit.getD 0 →
       checkBudgetPolicy env p u t c = .error (.keyError "id")) := by
  constructor
  · intro env p ps req u t c e hact hchk
    unfold evaluateRequest collectViolations
    rw [if_pos hact, hchk]
  · intro env p u t c hid hgt
    unfold checkBudgetPolicy
    rw [if_pos hgt]
    unfold mkViolation
    rw [hid]

/-- Witness for C2's amended statement at a concrete input: the
malformed budget rule raises, and with a healthy rule behind it the
whole evaluation errors rather than skipping it. -/
theorem evaluate_propagates_rule_errors_witness :
    checkBudgetPolicy envDemo malformedBudgetPolicy none none 1 = .error (.keyError "id") ∧
    evaluateRequest envDemo (malformedBudgetPolicy :: [blockBobPolicy]) emptyRequest
      none none 1 = .error (.keyError "id") := by
  have hchk : checkPolicy envDemo malformedBudgetPolicy emptyRequest none none 1 =
      .error (.keyError "id") := by
    norm_num [checkPolicy, checkBudgetPolicy, mkViolation, envDemo, malformedBudgetPolicy,
      mockGetCurrentSpend]
  constructor
  · exact evaluate_propagates_rule_errors.2 envDemo malformedBudgetPolicy none none 1 rfl
      (by norm_num [envDemo, malformedBudgetPolicy, mockGetCurrentSpend])
  · exact evaluate_propagates_rule_errors.1 envDemo malformedBudgetPolicy [blockBobPolicy]
      emptyRequest none none 1 (.keyError "id") rfl hchk

/-- A successful `mkViolation` records exactly the kind and action that
were passed in. -/
theorem mkViolation_inv (p : Policy) (ty act : String) (v : Violation)
    (h : mkViolation p ty act = .ok (some v)) : v.vtype = ty ∧ v.action = act := by
  unfold mkViolation at h
  cases hid : p.id with
  | some pid => rw [hid] at h; cases h; exact ⟨rfl, rfl⟩
  | none => rw [hid] at h; exact Except.noConfusion h

/-- A budget-rule violation always carries kind `budget` and the rule's
configured action, defaulting to `warn`. -/
theorem checkBudgetPolicy_inv (env : PolicyEnv) (p : Policy) (u t : Option String) (c : ℚ)
    (v : Violation) (h : checkBudgetPolicy env p u t c = .ok (some v)) :
    v.vtype = "budget" ∧ v.action = p.action.getD "warn" := by
  simp only [checkBudgetPolicy] at h
  split at h
  · exact mkViolation_inv p "budget" _ v h
  · exact Option.noConfusion (Except.ok.inj h)

/-- Budget rule over the ceiling: the violation is produced (with the
configured action, defaulting to `warn`). -/
theorem checkBudgetPolicy_pos (env : PolicyEnv) (p : Policy) (u t : Option String) (c : ℚ)
    (pid : String) (hid : p.id = some pid)
    (hgt : env.getCurrentSpend u t (p.time_window.getD "daily") (p.scope.getD "user") + c >
      p.budget_limit.getD 0) :
    checkBudgetPolicy env p u t c = .ok (some ⟨pid, "budget", p.action.getD "warn"⟩) := by
  simp only [checkBudgetPolicy]
  rw [if_pos hgt]
  unfold mkViolation
  rw [hid]

/-- Budget rule at or below the ceiling: no violation. -/
theorem checkBudgetPolicy_neg (env : PolicyEnv) (p : Policy) (u t : Option String) (c : ℚ)
    (hle : ¬ (env.getCurrentSpend u t (p.time_window.getD "daily") (p.scope.getD "user") + c >
      p.budget_limit.getD 0)) :
    checkBudgetPolicy env p u t c = .ok none := by
  simp only [checkBudgetPolicy]
  rw [if_neg hle]

/-- A user/team violation always carries kind `user` and the hardcoded
action `block`. -/
theorem checkUserPolicy_inv (p : Policy) (u t : Option String) (v : Violation)
    (h : checkUserPolicy p u t = .ok (some v)) : v.vtype = "user" ∧ v.action = "block" := by
  simp only [checkUserPolicy] at h
  split at h
  · exact mkViolation_inv p "user" "block" v h
  · split at h
    · exact mkViolation_inv p "user" "block" v h
    · split at h
      · exact mkViolation_inv p "user" "block" v h
      · split at h
        · exact mkViolation_inv p "user" "block" v h
        · exact Option.noConfusion (Except.ok.inj h)

/-- The deny-list / allow-list condition of `_check_model_policy`: the
requested model is in the blocked list, or an allow-list exists and the
model is absent from it. -/
def modelDenied (p : Policy) (req : RequestData) : Bool :=
  (!(p.blocked_models.getD []).isEmpty &&
      (p.blocked_models.getD []).contains (req.model.getD "")) ||
    (!(p.allowed_models.getD []).isEmpty &&
      !(p.allowed_models.getD []).contains (req.model.getD ""))

/-- A model violation carries kind `model`; its action is the hardcoded
`block` when the deny-list / allow-list condition fired, and the rule's
configured action (default `warn`) when only the token ceiling fired. -/
theorem checkModelPolicy_inv (p : Policy) (req : RequestData) (v : Violation)
    (h : checkModelPolicy p req = .ok (some v)) :
    v.vtype = "model" ∧
    (modelDenied p req = true → v.action = "block") ∧
    (modelDenied p req = false → v.action = p.action.getD "warn") := by
  simp only [checkModelPolicy] at h
  split at h
  next hc1 =>
    obtain ⟨ht, ha⟩ := mkViolation_inv p "model" "block" v h
    refine ⟨ht, fun _ => ha, fun hd => ?_⟩
    simp only [modelDenied, Bool.or_eq_false_iff] at hd
    rw [hc1] at hd
    exact absurd hd.1 (by decide)
  next hc1 =>
    split at h
    next hc2 =>
      obtain ⟨ht, ha⟩ := mkViolation_inv p "model" "block" v h
      refine ⟨ht, fun _ => ha, fun hd => ?_⟩
      simp only [modelDenied, Bool.or_eq_false_iff] at hd
      rw [hc2] at hd
      exact absurd hd.2 (by decide)
    next hc2 =>
      simp only [Bool.not_eq_true] at hc1 hc2
      split at h
      next mt hmt =>
        split at h
        · obtain ⟨ht, ha⟩ := mkViolation_inv p "model" _ v h
          refine ⟨ht, fun hd => ?_, fun _ => ha⟩
          simp only [modelDenied, hc1, hc2, Bool.or_self] at hd
          exact absurd hd (by decide)
        · exact Option.noConfusion (Except.ok.inj h)
      next hmt => exact Option.noConfusion (Except.ok.inj h)

/-- A content violation carries kind `content`; its action is the
configured one with default `block` (pattern branch) or default `warn`
(keyword branch). -/
theorem checkContentPolicy_inv (p : Policy) (req : RequestData) (v : Violation)
    (h : checkContentPolicy p req = .ok (some v)) :
    v.vtype = "content" ∧
    (v.action = p.action.getD "block" ∨ v.action = p.action.getD "warn") := by
  simp only [checkContentPolicy] at h
  split at h
  · exact Except.noConfusion h
  · obtain ⟨ht, ha⟩ := mkViolation_inv p "content" _ v h
    exact ⟨ht, Or.inl ha⟩
  · split at h
    · obtain ⟨ht, ha⟩ := mkViolation_inv p "content" _ v h
      exact ⟨ht, Or.inr ha⟩
    · exact Option.noConfusion (Except.ok.inj h)

/-- A time-window violation carries kind `time` and the configured
action with default `block` in both branches. -/
theorem checkTimePolicy_inv (p : Policy) (nh : ℕ) (nd : String) (v : Violation)
    (h : checkTimePolicy p nh nd = .ok (some v)) :
    v.vtype = "time" ∧ v.action = p.action.getD "block" := by
  simp only [checkTimePolicy] at h
  split at h
  · exact mkViolation_inv p "time" _ v h
  · split at h
    · exact mkViolation_inv p "time" _ v h
    · exact Option.noConfusion (Except.ok.inj h)

/-- C9: an active budget rule with ceiling `L` produces a violation if
and only if the accumulated spend read for its scope and window plus the
estimated cost strictly exceeds `L` (first two conjuncts), and in the
concrete scenario — accumulated spend $9.99, estimated cost $0.02,
ceiling $10 — the overall action of `evaluate_request` is the rule's
configured action, `warn` or `block`, never `allow` (last conjunct).
The accumulated-spend read is the ledger parameter of the environment
(the source stubs it at $0.05 inside `_get_current_spend`). -/
theorem budget_rule_violation_iff_over_limit :
    (∀ (env : PolicyEnv) (p : Policy) (u t : Option String) (c : ℚ) (pid : String),
       p.id = some pid →
       (checkBudgetPolicy env p u t c =
           .ok (some ⟨pid, "budget", p.action.getD "warn"⟩) ↔
         env.getCurrentSpend u t (p.time_window.getD "daily") (p.scope.getD "user") + c >
           p.budget_limit.getD 0)) ∧
    (∀ (env : PolicyEnv) (p : Policy) (u t : Option String) (c : ℚ),
       ¬ (env.getCurrentSpend u t (p.time_window.getD "daily") (p.scope.getD "user") + c >
           p.budget_limit.getD 0) →
       checkBudgetPolicy env p u t c = .ok none) ∧
    (∀ (env : PolicyEnv) (p : Policy) (req : RequestData) (u t : Option String)
       (pid a : String) (r : EvalResult),
       p.id = some pid → p.type = some "budget" → p.active = true →
       p.budget_limit = some 10 → p.action = some a → (a = "warn" ∨ a = "block") →
       env.getCurrentSpend u t (p.time_window.getD "daily") (p.scope.getD "user") = 999 / 100 →
       evaluateRequest env [p] req u t (1 / 50) = .ok r →
       r.action = a ∧ r.action ≠ "allow") := by
  refine ⟨?_, checkBudgetPolicy_neg, ?_⟩
  · intro env p u t c pid hid
    constructor
    · intro heq
      by_contra hle
      rw [checkBudgetPolicy_neg env p u t c hle] at heq
      exact Option.noConfusion (Except.ok.inj heq)
    · exact checkBudgetPolicy_pos env p u t c pid hid
  · intro env p req u t pid a r hid htype hact hlim haction ha hspend hr
    have hgt : env.getCurrentSpend u t (p.time_window.getD "daily") (p.scope.getD "user") +
        1 / 50 > p.budget_limit.getD 0 := by
      rw [hspend, hlim]
      norm_num
    have hbdg := checkBudgetPolicy_pos env p u t (1 / 50) pid hid hgt
    rw [haction] at hbdg
    have hchk : checkPolicy env p req u t (1 / 50) =
        .ok (some ⟨pid, "budget", (some a).getD "warn"⟩) := by
      unfold checkPolicy
      rw [htype]
      exact hbdg
    unfold evaluateRequest collectViolations at hr
    rw [if_pos hact, hchk] at hr
    simp only [collectViolations, Option.getD_some] at hr
    cases hr
    rcases ha with rfl | rfl
    · have hfa : finalAction [⟨pid, "budget", "warn"⟩] = "warn" := by
        simp [finalAction]
      refine ⟨hfa, ?_⟩
      show finalAction [⟨pid, "budget", "warn"⟩] ≠ "allow"
      rw [hfa]
      decide
    · have hfa : finalAction [⟨pid, "budget", "block"⟩] = "block" := by
        simp [finalAction]
      refine ⟨hfa, ?_⟩
      show finalAction [⟨pid, "budget", "block"⟩] ≠ "allow"
      rw [hfa]
      decide

/-- A budget rule configured to warn at a $10 daily ceiling. -/
def budgetWarnPolicy : Policy :=
  { id := some "pb", type := some "budget", budget_limit := some 10, action := some "warn",
    time_window := some "daily", scope := some "user" }

/-- A ledger environment reporting $9.99 accumulated spend everywhere. -/
def ledger999Env : PolicyEnv := ⟨fun _ _ _ _ => 999 / 100, 12, "monday"⟩

/-- Witness for C9 at the concrete scenario: spend $9.99, estimated cost
$0.02, ceiling $10, configured action `warn` — the overall action is
`warn`, not `allow`. -/
theorem budget_rule_violation_iff_over_limit_witness :
    evaluateRequest ledger999Env [budgetWarnPolicy] emptyRequest (some "u") none (1 / 50) =
      .ok ⟨"warn", true, [⟨"pb", "budget", "warn"⟩]⟩ ∧
    (EvalResult.mk "warn" true [⟨"pb", "budget", "warn"⟩]).action = "warn" ∧
    (EvalResult.mk "warn" true [⟨"pb", "budget", "warn"⟩]).action ≠ "allow" := by
  have he : evaluateRequest ledger999Env [budgetWarnPolicy] emptyRequest (some "u") none
      (1 / 50) = .ok ⟨"warn", true, [⟨"pb", "budget", "warn"⟩]⟩ := by
    norm_num [evaluateRequest, collectViolations, checkPolicy, checkBudgetPolicy, mkViolation,
      finalAction, ledger999Env, budgetWarnPolicy, emptyRequest]
    decide
  refine ⟨he, ?_⟩
  exact budget_rule_violation_iff_over_limit.2.2 ledger999Env budgetWarnPolicy emptyRequest
    (some "u") none "pb" "warn" ⟨"warn", true, [⟨"pb", "budget", "warn"⟩]⟩
    rfl rfl rfl rfl rfl (Or.inl rfl) rfl he

/-- C10: identity (user/team) violations and model deny- or allow-list
violations always carry the hardcoded action `block`, regardless of the
rule's configured action; budget, content, time-window and token-ceiling
violations carry the rule's configured action with per-kind defaults
(`warn` for budget and the token ceiling, `block` for content patterns
and time windows, `warn` for content keywords).  The last conjunct lifts
the identity case to the violations returned by `evaluate_request`. -/
theorem violation_actions_by_kind :
    (∀ (p : Policy) (u t : Option String) (v : Violation),
       checkUserPolicy p u t = .ok (some v) → v.action = "block") ∧
    (∀ (p : Policy) (req : RequestData) (v : Violation),
       checkModelPolicy p req = .ok (some v) →
       (modelDenied p req = true → v.action = "block") ∧
       (modelDenied p req = false → v.action = p.action.getD "warn")) ∧
    (∀ (env : PolicyEnv) (p : Policy) (u t : Option String) (c : ℚ) (v : Violation),
       checkBudgetPolicy env p u t c = .ok (some v) → v.action = p.action.getD "warn") ∧
    (∀ (p : Policy) (req : RequestData) (v : Violation),
       checkContentPolicy p req = .ok (some v) →
       v.action = p.action.getD "block" ∨ v.action = p.action.getD "warn") ∧
    (∀ (p : Policy) (nh : ℕ) (nd : String) (v : Violation),
       checkTimePolicy p nh nd = .ok (some v) → v.action = p.action.getD "block") ∧
    (∀ (env : PolicyEnv) (ps : List Policy) (req : RequestData) (u t : Option String)
       (c : ℚ) (r : EvalResult) (v : Violation),
       evaluateRequest env ps req u t c = .ok r → v ∈ r.violations → v.vtype = "user" →
       v.action = "block") := by
  refine ⟨fun p u t v h => (checkUserPolicy_inv p u t v h).2,
    fun p req v h => (checkModelPolicy_inv p req v h).2,
    fun env p u t c v h => (checkBudgetPolicy_inv env p u t c v h).2,
    fun p req v h => (checkContentPolicy_inv p req v h).2,
    fun p nh nd v h => (checkTimePolicy_inv p nh nd v h).2, ?_⟩
  intro env ps req u t c r v hr hv hty
  unfold evaluateRequest at hr
  cases hcol : collectViolations env req u t c ps with
  | error e => rw [hcol] at hr; exact Except.noConfusion hr
  | ok vs =>
    rw [hcol] at hr
    cases hr
    obtain ⟨p, _, _, hpc⟩ := check_of_collect_mem env req u t c ps vs v hcol hv
    unfold checkPolicy at hpc
    split at hpc
    · rw [(checkBudgetPolicy_inv _ _ _ _ _ _ hpc).1] at hty
      exact absurd hty (by decide)
    · rw [(checkContentPolicy_inv _ _ _ hpc).1] at hty
      exact absurd hty (by decide)
    · exact (checkUserPolicy_inv _ _ _ _ hpc).2
    · rw [(checkModelPolicy_inv _ _ _ hpc).1] at hty
      exact absurd hty (by decide)
    · rw [(checkTimePolicy_inv _ _ _ _ hpc).1] at hty
      exact absurd hty (by decide)
    · exact Option.noConfusion (Except.ok.inj hpc)

/-- A model rule configured with action `allow` that deny-lists
`gpt-4`; the deny-list branch must still block. -/
def modelAllowPolicy : Policy :=
  { id := some "pm", type := some "model", action := some "allow",
    blocked_models := some ["gpt-4"] }

/-- A model rule configured with action `allow` whose token ceiling is
5; the ceiling branch must use the configured action. -/
def tokenCeilingPolicy : Policy :=
  { id := some "pt", type := some "model", action := some "allow", max_tokens := some 5 }

/-- A request for `gpt-4` with `max_tokens` 10. -/
def gpt4Request : RequestData := { model := some "gpt-4", max_tokens := some 10 }

/-- Witness for C10 at concrete inputs: a deny-listed user and a
deny-listed model are blocked even though the model rule is configured
`allow`, while the token-ceiling violation carries the configured
`allow` action. -/
theorem violation_actions_by_kind_witness :
    checkUserPolicy blockBobPolicy (some "bob") none = .ok (some ⟨"p1", "user", "block"⟩) ∧
    (Violation.mk "p1" "user" "block").action = "block" ∧
    checkModelPolicy modelAllowPolicy gpt4Request = .ok (some ⟨"pm", "model", "block"⟩) ∧
    (Violation.mk "pm" "model" "block").action = "block" ∧
    checkModelPolicy tokenCeilingPolicy gpt4Request = .ok (some ⟨"pt", "model", "allow"⟩) ∧
    (Violation.mk "pt" "model" "allow").action = tokenCeilingPolicy.action.getD "warn" := by
  have h1 : checkUserPolicy blockBobPolicy (some "bob") none =
      .ok (some ⟨"p1", "user", "block"⟩) := by
    norm_num [checkUserPolicy, mkViolation, optMem, blockBobPolicy]
  have h2 : checkModelPolicy modelAllowPolicy gpt4Request =
      .ok (some ⟨"pm", "model", "block"⟩) := by
    norm_num [checkModelPolicy, mkViolation, modelAllowPolicy, gpt4Request]
  have h3 : checkModelPolicy tokenCeilingPolicy gpt4Request =
      .ok (some ⟨"pt", "model", "allow"⟩) := by
    norm_num [checkModelPolicy, mkViolation, tokenCeilingPolicy, gpt4Request]
  refine ⟨h1, violation_actions_by_kind.1 blockBobPolicy (some "bob") none _ h1,
    h2, ?_, h3, ?_⟩
  · exact (violation_actions_by_kind.2.1 modelAllowPolicy gpt4Request _ h2).1
      (by norm_num [modelDenied, modelAllowPolicy, gpt4Request])
  · exact (violation_actions_by_kind.2.1 tokenCeilingPolicy gpt4Request _ h3).2
      (by norm_num [modelDenied, tokenCeilingPolicy, gpt4Request])

/-- Raw provider payload; its contents are irrelevant to the proxy's
control flow. -/
abbrev ResponseData := String

/-- Quality-analysis payload returned by the analyzer; its contents are
irrelevant to the proxy's control flow. -/
abbrev QualityAnalysis := String

/-- The dict `OpenAIProxy.proxy_request` returns to its caller, reduced
to the three shapes the source produces: blocked by policy (`success`
False, 403), success (`success` True, the provider's own status code —
also for non-2xx — with the warn-level policy violations and the quality
analysis), or the single `except` branch (`success` False, 500). -/
inductive ProxyResult where
  | blocked (violations : List Violation)
  | ok (data : ResponseData) (status_code : ℕ) (warnings : List Violation)
      (quality : QualityAnalysis)
  | fail (error : String)
  deriving DecidableEq, Repr

/-- The `success` key of the returned dict. -/
def ProxyResult.success : ProxyResult → Bool
  | .ok .. => true
  | _ => false

/-- The `status_code` key of the returned dict. -/
def ProxyResult.statusCode : ProxyResult → ℕ
  | .blocked _ => 403
  | .ok _ c _ _ => c
  | .fail _ => 500

/-- Embedding of the decision structure of `OpenAIProxy.proxy_request`
after the policy evaluation: `dispatch` is the single outbound HTTP call
(`self.client.post` followed by `response.json()`; a transport error,
timeout or malformed payload is `.error`), `analyze` is the quality
analysis call on the response.  Both run inside one `try`, so any
exception lands in the single `except` branch returning `success=False`
with status 500.  There is no retry loop, no `markUnhealthy` call and no
fallback iteration, and a non-2xx provider status is passed through as a
success. -/
def openaiProxyRequest (policyResult : EvalResult)
    (dispatch : Except String (ResponseData × ℕ))
    (analyze : ResponseData → Except String QualityAnalysis) : ProxyResult :=
  if !policyResult.allowed then
    .blocked policyResult.violations
  else
    match dispatch with
    | .error e => .fail e
    | .ok (data, code) =>
      match analyze data with
      | .error e => .fail e
      | .ok qa =>
        .ok data code (policyResult.violations.filter (fun v => v.action == "warn")) qa

/-- A provider status dict stored in
`CrossProviderIntelligence.provider_status`; timestamps are seconds. -/
structure ProviderStatus where
  healthy : Bool
  reason : Option String := none
  marked_unhealthy_at : Option ℚ := none
  retry_after : Option ℚ := none
  last_check : Option ℚ := none
  success_rate : Option ℚ := none
  deriving DecidableEq, Repr

/-- The `provider_status` dict, keyed by provider name; a later write
shadows an earlier one. -/
abbrev ProviderStatusMap := List (String × ProviderStatus)

/-- Dict read: first (most recent) binding wins. -/
def lookupStatus (st : ProviderStatusMap) (p : String) : Option ProviderStatus :=
  match st with
  | [] => none
  | (q, s) :: rest => if q = p then some s else lookupStatus rest p

/-- Dict write `self.provider_status[provider] = status`. -/
def setStatus (st : ProviderStatusMap) (p : String) (s : ProviderStatus) : ProviderStatusMap :=
  (p, s) :: st

/-- Embedding of `_mark_provider_unhealthy`: records an unhealthy status
with `retry_after` five minutes (300 seconds) after `now`. -/
def markProviderUnhealthy (st : ProviderStatusMap) (provider reason : String) (now : ℚ) :
    ProviderStatusMap :=
  setStatus st provider ⟨false, some reason, some now, some (now + 300), none, none⟩

/-- Embedding of `_get_healthy_providers` (names of the returned
provider entries): filters the static provider list by the stored
`healthy` flag, a missing status defaulting to healthy.  It consults
neither the clock nor the stored `retry_after` field. -/
def getHealthyProviders (st : ProviderStatusMap) (exclude : List String) : List String :=
  ["openai", "anthropic"].filter (fun p =>
    !exclude.contains p && (((lookupStatus st p).map (fun s => s.healthy)).getD true))

/-- The static cross-provider model equivalence table of
`_get_equivalent_models`. -/
def getEquivalentModels (originalModel targetProvider : String) : List String :=
  if targetProvider = "openai" then
    if originalModel = "gpt-4" then ["gpt-4", "gpt-4-turbo"]
    else if originalModel = "gpt-3.5-turbo" then ["gpt-3.5-turbo"]
    else if originalModel = "claude-3-sonnet" then ["gpt-4"]
    else if originalModel = "claude-3-haiku" then ["gpt-3.5-turbo"]
    else []
  else if targetProvider = "anthropic" then
    if originalModel = "gpt-4" then ["claude-3-sonnet"]
    else if originalModel = "gpt-3.5-turbo" then ["claude-3-haiku"]
    else if originalModel = "claude-3-sonnet" then ["claude-3-sonnet"]
    else if originalModel = "claude-3-haiku" then ["claude-3-haiku"]
    else []
  else []

/-- The dict `handle_failover` returns on finding an alternative
(free-text `reason` elided). -/
structure FailoverDecision where
  provider : String
  model : String
  original_provider : String
  failover : Bool
  deriving DecidableEq, Repr

/-- The alternative-search loop of `handle_failover`: the first healthy
alternative provider offering a nonempty equivalent-model list wins, and
its first equivalent model is chosen. -/
def findAlternative (originalModel failedProvider : String) :
    List String → Option FailoverDecision
  | [] => none
  | p :: rest =>
    match getEquivalentModels originalModel p with
    | [] => findAlternative originalModel failedProvider rest
    | m :: _ => some ⟨p, m, failedProvider, true⟩

/-- Embedding of `handle_failover`: marks the failed provider unhealthy,
queries healthy alternatives excluding it, and returns the first
alternative with an equivalent model — or `None`.  It performs no
dispatch attempts, keeps no record of attempted options, and produces no
`exhausted-fallbacks` status. -/
def handleFailover (st : ProviderStatusMap) (failedProvider originalModel : String)
    (now : ℚ) : ProviderStatusMap × Option FailoverDecision :=
  let st2 := markProviderUnhealthy st failedProvider "api_failure" now
  let alternatives := getHealthyProviders st2 [failedProvider]
  (st2, findAlternative originalModel failedProvider alternatives)

/-- A successful alternative search returns a member of the alternative
list together with the head of its equivalent-model list. -/
theorem findAlternative_inv (model failed : String) (alts : List String)
    (d : FailoverDecision) (h : findAlternative model failed alts = some d) :
    d.provider ∈ alts ∧ ∃ ms, getEquivalentModels model d.provider = d.model :: ms := by
  induction alts with
  | nil => exact Option.noConfusion h
  | cons p rest ih =>
    unfold findAlternative at h
    cases heq : getEquivalentModels model p with
    | nil =>
      rw [heq] at h
      obtain ⟨h1, h2⟩ := ih h
      exact ⟨List.mem_cons_of_mem _ h1, h2⟩
    | cons m ms =>
      rw [heq] at h
      cases h
      exact ⟨List.mem_cons_self .., ms, heq⟩

/-- C3 counterexample: with two eligible options where the remaining one
is already unhealthy, a total dispatch failure produces no
`exhausted-fallbacks` result and no attempted-options list anywhere: the
proxy's only failure path returns `success=False` with status 500 after
its single dispatch attempt, and `handle_failover` returns `None`. -/
theorem no_exhausted_fallbacks_on_total_failure :
    openaiProxyRequest ⟨"allow", true, []⟩ (.error "ConnectError") (fun _ => .ok "") =
      .fail "ConnectError" ∧
    (openaiProxyRequest ⟨"allow", true, []⟩ (.error "ConnectError")
      (fun _ => .ok "")).statusCode = 500 ∧
    (handleFailover (markProviderUnhealthy [] "anthropic" "api_failure" 0)
      "openai" "gpt-4" 10).2 = none := by
  exact ⟨rfl, rfl, rfl⟩

/-- C3 amended: a failed dispatch attempt in `OpenAIProxy.proxy_request`
is not retried — the proxy returns `success=False` with status 500 after
the single attempt, and a non-2xx provider status is even passed through
as a success; separately, `handle_failover` marks only the failed
provider unhealthy (with `retry_after` = now + 5 min) and returns the
first healthy alternative provider together with the head of its
equivalent-model list, or `None` when no healthy alternative with an
equivalent model remains; no `exhausted-fallbacks` status and no
attempted list exist. -/
theorem dispatch_failure_no_retry :
    (∀ (pr : EvalResult) (e : String)
       (analyze : ResponseData → Except String QualityAnalysis),
       pr.allowed = true →
       openaiProxyRequest pr (.error e) analyze = .fail e ∧
       (openaiProxyRequest pr (.error e) analyze).statusCode = 500) ∧
    (∀ (pr : EvalResult) (data : ResponseData) (code : ℕ)
       (analyze : ResponseData → Except String QualityAnalysis) (qa : QualityAnalysis),
       pr.allowed = true → analyze data = .ok qa →
       (openaiProxyRequest pr (.ok (data, code)) analyze).success = true ∧
       (openaiProxyRequest pr (.ok (data, code)) analyze).statusCode = code) ∧
    (∀ (st : ProviderStatusMap) (failed model : String) (now : ℚ),
       lookupStatus (handleFailover st failed model now).1 failed =
         some ⟨false, some "api_failure", some now, some (now + 300), none, none⟩) ∧
    (∀ (st : ProviderStatusMap) (failed model : String) (now : ℚ),
       getHealthyProviders (markProviderUnhealthy st failed "api_failure" now) [failed] = [] →
       (handleFailover st failed model now).2 = none) ∧
    (∀ (st : ProviderStatusMap) (failed model : String) (now : ℚ) (d : FailoverDecision),
       (handleFailover st failed model now).2 = some d →
       d.provider ∈
         getHealthyProviders (markProviderUnhealthy st failed "api_failure" now) [failed] ∧
       ∃ ms, getEquivalentModels model d.provider = d.model :: ms) := by
  refine ⟨?_, ?_, ?_, ?_, ?_⟩
  · intro pr e analyze hall
    constructor
    · simp [openaiProxyRequest, hall]
    · simp [openaiProxyRequest, hall, ProxyResult.statusCode]
  · intro pr data code analyze qa hall hana
    constructor
    · simp [openaiProxyRequest, hall, hana, ProxyResult.success]
    · simp [openaiProxyRequest, hall, hana, ProxyResult.statusCode]
  · intro st failed model now
    simp [handleFailover, markProviderUnhealthy, setStatus, lookupStatus]
  · intro st failed model now hempty
    simp only [handleFailover]
    rw [hempty]
    rfl
  · intro st failed model now d h
    simp only [handleFailover] at h
    exact findAlternative_inv model failed _ d h

/-- Witness for C3's amended statement at concrete inputs: a connection
error on the single attempt yields a 500 failure; with `anthropic`
healthy, `handle_failover` for a failed `openai` returns
`claude-3-sonnet` on `anthropic`; with `anthropic` already unhealthy it
returns `None`. -/
theorem dispatch_failure_no_retry_witness :
    openaiProxyRequest ⟨"allow", true, []⟩ (.error "ReadTimeout") (fun _ => .ok "") =
      .fail "ReadTimeout" ∧
    (handleFailover [] "openai" "gpt-4" 0).2 = some ⟨"anthropic", "claude-3-sonnet", "openai", true⟩ ∧
    (handleFailover (markProviderUnhealthy [] "anthropic" "api_failure" 0)
      "openai" "gpt-4" 10).2 = none := by
  refine ⟨(dispatch_failure_no_retry.1 ⟨"allow", true, []⟩ "ReadTimeout" (fun _ => .ok "") rfl).1,
    rfl, ?_⟩
  exact dispatch_failure_no_retry.2.2.2.1
    (markProviderUnhealthy [] "anthropic" "api_failure" 0) "openai" "gpt-4" 10 rfl

/-- C7 counterexample: a successful dispatch whose quality analysis
raises is returned to the caller as a 500 request error — the provider
response is discarded and no default verdict is substituted.  In the
source this happens on every successful dispatch: the proxy calls
`ai_quality_analyzer.analyze_response_quality`, a method that does not
exist (the class defines `analyze_quality`), raising `AttributeError`
inside the `try` block. -/
theorem analysis_failure_becomes_request_error :
    openaiProxyRequest ⟨"allow", true, []⟩ (.ok ("provider reply", 200))
      (fun _ => .error "AttributeError: analyze_response_quality") =
      .fail "AttributeError: analyze_response_quality" ∧
    (openaiProxyRequest ⟨"allow", true, []⟩ (.ok ("provider reply", 200))
      (fun _ => .error "AttributeError: analyze_response_quality")).success = false := by
  exact ⟨rfl, rfl⟩

/-- C7 amended: when quality analysis raises after a successful
dispatch, the exception is caught by the proxy's generic handler and the
caller receives `success=False` with status 500; the provider response
is not returned and no low-confidence default verdict is substituted. -/
theorem analysis_failure_surfaces_as_500 (pr : EvalResult) (data : ResponseData) (code : ℕ)
    (analyze : ResponseData → Except String QualityAnalysis) (e : String)
    (hall : pr.allowed = true) (hana : analyze data = .error e) :
    openaiProxyRequest pr (.ok (data, code)) analyze = .fail e ∧
    (openaiProxyRequest pr (.ok (data, code)) analyze).success = false ∧
    (openaiProxyRequest pr (.ok (data, code)) analyze).statusCode = 500 := by
  refine ⟨?_, ?_, ?_⟩
  · simp [openaiProxyRequest, hall, hana]
  · simp [openaiProxyRequest, hall, hana, ProxyResult.success]
  · simp [openaiProxyRequest, hall, hana, ProxyResult.statusCode]

/-- Witness for C7's amended statement at a concrete input. -/
theorem analysis_failure_surfaces_as_500_witness :
    openaiProxyRequest ⟨"allow", true, []⟩ (.ok ("some reply", 200))
      (fun _ => .error "NameError") = .fail "NameError" ∧
    (openaiProxyRequest ⟨"allow", true, []⟩ (.ok ("some reply", 200))
      (fun _ => .error "NameError")).success = false ∧
    (openaiProxyRequest ⟨"allow", true, []⟩ (.ok ("some reply", 200))
      (fun _ => .error "NameError")).statusCode = 500 :=
  analysis_failure_surfaces_as_500 ⟨"allow", true, []⟩ "some reply" 200
    (fun _ => .error "NameError") "NameError" rfl rfl

/-- Python `l[-n:]`. -/
def lastN (n : ℕ) (l : List ℚ) : List ℚ := l.drop (l.length - n)

/-- The `statistics.mean` of the last ten success samples, with the
source's guard: an empty sample history counts as a perfect success
rate of 1.0. -/
def recentSuccessRate (successRate : List ℚ) : ℚ :=
  if successRate.isEmpty then 1
  else (lastN 10 successRate).sum / (lastN 10 successRate).length

/-- The per-model metrics record kept by `track_provider_performance`.
Only the `success_rate` sample list and the request counter are
modelled; the response-time, cost and quality lists never influence
health. -/
structure Metrics where
  success_rate : List ℚ := []
  request_count : ℕ := 0
  deriving DecidableEq, Repr

/-- The failover config default `error_rate_threshold` (0.1). -/
def errorRateThreshold : ℚ := 1 / 10

/-- Embedding of `_update_provider_health`: a below-threshold recent
success rate marks the provider unhealthy (recording
`retry_after = now + 300`), otherwise the provider is written back as
healthy. -/
def updateProviderHealth (st : ProviderStatusMap) (provider : String) (m : Metrics)
    (now : ℚ) : ProviderStatusMap :=
  let recent := recentSuccessRate m.success_rate
  if recent < errorRateThreshold then
    markProviderUnhealthy st provider "low_success_rate" now
  else
    setStatus st provider ⟨true, none, none, none, some now, some recent⟩

/-- The metrics update performed by `track_provider_performance` for one
reported outcome: append the success bit and keep the last 100
samples. -/
def trackOutcome (m : Metrics) (success : Bool) : Metrics :=
  ⟨lastN 100 (m.success_rate ++ [if success then 1 else 0]), m.request_count + 1⟩

/-- Reading back the status just written for a provider. -/
theorem lookupStatus_set_self (st : ProviderStatusMap) (p : String) (s : ProviderStatus) :
    lookupStatus (setStatus st p s) p = some s := by
  simp [setStatus, lookupStatus]

/-- Membership in the healthy-provider list, unfolded. -/
theorem mem_getHealthyProviders (st : ProviderStatusMap) (exclude : List String)
    (p : String) :
    p ∈ getHealthyProviders st exclude ↔
      p ∈ ["openai", "anthropic"] ∧ ¬ p ∈ exclude ∧
        ((lookupStatus st p).map (fun s => s.healthy)).getD true = true := by
  simp [getHealthyProviders, List.mem_filter, and_assoc]

/-- C4 counterexample: re-eligibility after the five-minute cooldown is
not automatic.  `_get_healthy_providers` consults only the stored
`healthy` flag — never the clock or the recorded `retry_after` — and no
code path flips the flag on time alone, so a provider marked unhealthy
at time 0 stays excluded at every later instant (the state, and with it
the healthy set, is unchanged by the passage of time) until some further
outcome report runs `_update_provider_health`.  The recorded
`retry_after` of 300 s is dead data. -/
theorem cooldown_never_auto_expires :
    getHealthyProviders (markProviderUnhealthy [] "openai" "low_success_rate" 0) [] =
      ["anthropic"] ∧
    (lookupStatus (markProviderUnhealthy [] "openai" "low_success_rate" 0) "openai").map
      (fun s => s.retry_after) = some (some 300) := by
  constructor
  · rfl
  · norm_num [markProviderUnhealthy, setStatus, lookupStatus]

/-- C4 amended: when the rolling success rate over the last ten samples
drops below 0.1, `_update_provider_health` marks the provider unhealthy
with `retry_after = now + 300`, excluding it from the healthy set; the
exclusion does not expire with time — the healthy query reads neither
the clock nor `retry_after` — and the provider becomes eligible again
exactly when a later outcome report finds the recent success rate at or
above the threshold, which re-marks it healthy. -/
theorem cooldown_requires_new_outcome_report :
    (∀ (st : ProviderStatusMap) (p : String) (m : Metrics) (now : ℚ),
       recentSuccessRate m.success_rate < errorRateThreshold →
       updateProviderHealth st p m now =
         markProviderUnhealthy st p "low_success_rate" now ∧
       (lookupStatus (updateProviderHealth st p m now) p).map (fun s => s.retry_after) =
         some (some (now + 300)) ∧
       p ∉ getHealthyProviders (updateProviderHealth st p m now) []) ∧
    (∀ (st : ProviderStatusMap) (p : String) (m : Metrics) (now : ℚ),
       p ∈ ["openai", "anthropic"] →
       ¬ recentSuccessRate m.success_rate < errorRateThreshold →
       p ∈ getHealthyProviders (updateProviderHealth st p m now) []) := by
  constructor
  · intro st p m now hlow
    have hupd : updateProviderHealth st p m now =
        markProviderUnhealthy st p "low_success_rate" now := by
      simp only [updateProviderHealth]
      rw [if_pos hlow]
    refine ⟨hupd, ?_, ?_⟩
    · rw [hupd]
      simp [markProviderUnhealthy, lookupStatus_set_self]
    · rw [hupd]
      intro hmem
      have h := ((mem_getHealthyProviders _ _ _).mp hmem).2.2
      rw [show lookupStatus (markProviderUnhealthy st p "low_success_rate" now) p =
        some ⟨false, some "low_success_rate", some now, some (now + 300), none, none⟩ from
        lookupStatus_set_self st p _] at h
      simp at h
  · intro st p m now hmem hok
    have hupd : updateProviderHealth st p m now =
        setStatus st p ⟨true, none, none, none, some now,
          some (recentSuccessRate m.success_rate)⟩ := by
      simp only [updateProviderHealth]
      rw [if_neg hok]
    rw [hupd]
    refine (mem_getHealthyProviders _ _ _).mpr ⟨hmem, by simp, ?_⟩
    rw [lookupStatus_set_self]
    rfl

/-- Ten consecutive failures: all-zero success samples. -/
def tenFailures : Metrics := ⟨[0, 0, 0, 0, 0, 0, 0, 0, 0, 0], 10⟩

/-- A single success sample. -/
def oneSuccess : Metrics := ⟨[1], 1⟩

/-- Witness for C4's amended statement at concrete inputs: ten failures
(rate 0 < 0.1) put `openai` into cooldown with `retry_after` = 305 and
exclude it from the healthy set; a later report with recent rate 1
restores eligibility. -/
theorem cooldown_requires_new_outcome_report_witness :
    updateProviderHealth [] "openai" tenFailures 5 =
      markProviderUnhealthy [] "openai" "low_success_rate" 5 ∧
    (lookupStatus (updateProviderHealth [] "openai" tenFailures 5) "openai").map
      (fun s => s.retry_after) = some (some (5 + 300)) ∧
    "openai" ∉ getHealthyProviders (updateProviderHealth [] "openai" tenFailures 5) [] ∧
    "openai" ∈ getHealthyProviders
      (updateProviderHealth (updateProviderHealth [] "openai" tenFailures 5)
        "openai" oneSuccess 400) [] := by
  have hlow : recentSuccessRate tenFailures.success_rate < errorRateThreshold := by
    norm_num [recentSuccessRate, errorRateThreshold, lastN, tenFailures]
  have hok : ¬ recentSuccessRate oneSuccess.success_rate < errorRateThreshold := by
    norm_num [recentSuccessRate, errorRateThreshold, lastN, oneSuccess]
  obtain ⟨h1, h2, h3⟩ := cooldown_requires_new_outcome_report.1 [] "openai" tenFailures 5 hlow
  refine ⟨h1, h2, h3, ?_⟩
  exact cooldown_requires_new_outcome_report.2
    (updateProviderHealth [] "openai" tenFailures 5) "openai" oneSuccess 400
    (by simp) hok

/-- Connection metadata stored by `LiveMonitoringService.connect`
(timestamps elided). -/
structure ConnMeta where
  user_id : Option String := none
  team_id : Option String := none
  deriving DecidableEq, Repr

/-- The `connections` / `connection_metadata` registries, keyed by
connection id. -/
abbrev Connections := List (String × ConnMeta)

/-- Embedding of `broadcast_to_all`'s delivery behavior: the payload is
sent to every registered connection; `sendFails` models the
per-connection transport (`websocket.send_text` raising), and failed
connections are collected for disconnection.  Returns (delivered ids,
disconnected ids).  The subscriber metadata is never consulted. -/
def broadcastToAll (st : Connections) (sendFails : String → Bool) :
    List String × List String :=
  ((st.filter (fun c => !sendFails c.1)).map (fun c => c.1),
   (st.filter (fun c => sendFails c.1)).map (fun c => c.1))

/-- The keys of the `live_request` payload built by
`stream_request_live` that are relevant to identity filtering. -/
structure LiveRequestEvent where
  request_id : Option String := none
  user_id : Option String := none
  team_id : Option String := none
  deriving DecidableEq, Repr

/-- Embedding of `stream_request_live` (`stream_response_live`,
`stream_policy_violation` and `stream_cost_alert` share the shape):
builds the payload and hands it to `broadcast_to_all`; the event's
`user_id`/`team_id` tags and the subscribers' stored filters play no
role in delivery. -/
def streamRequestLive (st : Connections) (sendFails : String → Bool)
    (_event : LiveRequestEvent) : List String :=
  (broadcastToAll st sendFails).1

/-- Embedding of `broadcast_to_team`: delivers only to connections whose
stored `team_id` equals the given team (this function exists but is not
used by the lifecycle streaming paths). -/
def broadcastToTeam (st : Connections) (sendFails : String → Bool) (teamId : String) :
    List String × List String :=
  ((st.filter (fun c => c.2.team_id == some teamId && !sendFails c.1)).map (fun c => c.1),
   (st.filter (fun c => c.2.team_id == some teamId && sendFails c.1)).map (fun c => c.1))

/-- C6 counterexample: a live subscriber registered with team filter
`team-A` receives a lifecycle event tagged `team-B` — the streaming
paths broadcast to every connection and never consult the stored
filter. -/
theorem team_filter_ignored_on_stream :
    streamRequestLive [("c1", ⟨none, some "team-A"⟩)] (fun _ => false)
      ⟨some "r1", none, some "team-B"⟩ = ["c1"] := rfl

/-- C6 amended: lifecycle events streamed through `stream_request_live`
(and its sibling streaming helpers) are delivered to every live
connection whose send succeeds, regardless of the subscriber's stored
user/team filter and of the event's tags; only the separate
`broadcast_to_team` helper — unused by the streaming paths — restricts
delivery to connections whose stored `team_id` equals the target
team. -/
theorem lifecycle_events_broadcast_to_all :
    (∀ (st : Connections) (sendFails : String → Bool) (event : LiveRequestEvent),
       streamRequestLive st sendFails event =
         (st.filter (fun c => !sendFails c.1)).map (fun c => c.1)) ∧
    (∀ (st : Connections) (sendFails : String → Bool) (teamId cid : String),
       cid ∈ (broadcastToTeam st sendFails teamId).1 →
       ∃ meta, (cid, meta) ∈ st ∧ meta.team_id = some teamId) := by
  constructor
  · intro st sendFails event
    rfl
  · intro st sendFails teamId cid h
    simp only [broadcastToTeam, List.mem_map, List.mem_filter] at h
    obtain ⟨⟨c1, c2⟩, ⟨hmem, hcond⟩, rfl⟩ := h
    rw [Bool.and_eq_true] at hcond
    refine ⟨c2, hmem, ?_⟩
    simpa using hcond.1

/-- Witness for C6's amended statement at concrete inputs: the
all-connections delivery of a tagged event, and the team-restricted
delivery of `broadcast_to_team`. -/
theorem lifecycle_events_broadcast_to_all_witness :
    streamRequestLive [("c1", ⟨none, some "team-A"⟩), ("c2", ⟨none, some "team-B"⟩)]
      (fun _ => false) ⟨some "r1", none, some "team-B"⟩ = ["c1", "c2"] ∧
    (broadcastToTeam [("c1", ⟨none, some "team-A"⟩), ("c2", ⟨none, some "team-B"⟩)]
      (fun _ => false) "team-B").1 = ["c2"] ∧
    (∃ meta, ("c2", meta) ∈
        ([("c1", ⟨none, some "team-A"⟩), ("c2", ⟨none, some "team-B"⟩)] : Connections) ∧
      meta.team_id = some "team-B") := by
  refine ⟨lifecycle_events_broadcast_to_all.1
    [("c1", ⟨none, some "team-A"⟩), ("c2", ⟨none, some "team-B"⟩)]
    (fun _ => false) ⟨some "r1", none, some "team-B"⟩, rfl, ?_⟩
  exact lifecycle_events_broadcast_to_all.2
    [("c1", ⟨none, some "team-A"⟩), ("c2", ⟨none, some "team-B"⟩)]
    (fun _ => false) "team-B" "c2" (by decide)

/-- A threat dict produced by the scanner's detectors (free-text
`description`, match excerpts and timestamps elided). -/
structure Threat where
  category : String
  ttype : String
  confidence : ℚ
  severity : String
  deriving DecidableEq, Repr

/-- One named entry of a static pattern table
(`_load_*_patterns`), carrying its regex source strings and the fixed
confidence/severity attached to any match (description elided). -/
structure PatternFamily where
  name : String
  patterns : List String
  confidence : ℚ
  severity : String

/-- The `_load_prompt_injection_patterns` table. -/
def promptInjectionPatterns : List PatternFamily :=
  [⟨"ignore_instructions",
    ["ignore.*previous.*instructions", "forget.*above.*instructions",
     "disregard.*system.*prompt", "override.*instructions"], 9/10, "high"⟩,
   ⟨"role_manipulation",
    ["you are now.*", "pretend to be.*", "act as.*", "roleplay.*"], 7/10, "medium"⟩,
   ⟨"system_prompt_extraction",
    ["show.*system.*prompt", "what.*your.*instructions", "reveal.*your.*prompt",
     "output.*system.*message"], 8/10, "high"⟩]

/-- The `_load_jailbreak_patterns` table. -/
def jailbreakPatterns : List PatternFamily :=
  [⟨"dan_style",
    ["do anything now", "DAN.*mode", "jailbreak.*mode", "unrestricted.*AI"], 19/20, "critical"⟩,
   ⟨"ethical_bypass",
    ["ignore.*ethics", "bypass.*safety", "without.*restrictions", "remove.*limitations"],
    8/10, "high"⟩,
   ⟨"hypothetical_scenarios",
    ["hypothetically.*if.*no.*rules", "imagine.*no.*guidelines",
     "in.*alternate.*universe.*where"], 6/10, "medium"⟩]

/-- The `_load_data_exfiltration_patterns` table. -/
def dataExfiltrationPatterns : List PatternFamily :=
  [⟨"data_requests",
    ["show.*all.*data", "export.*database", "dump.*all.*information", "list.*all.*users"],
    8/10, "high"⟩,
   ⟨"credential_harvesting",
    ["show.*passwords", "list.*API.*keys", "reveal.*tokens", "display.*credentials"],
    9/10, "critical"⟩]

/-- The `_load_sensitive_data_patterns` table (regex braces written as
hex escapes). -/
def sensitiveDataPatterns : List PatternFamily :=
  [⟨"social_security", ["\\b\\d\x7b3\x7d-\\d\x7b2\x7d-\\d\x7b4\x7d\\b"], 19/20, "high"⟩,
   ⟨"credit_card", ["\\b(?:\\d\x7b4\x7d[-\\s]?)\x7b3\x7d\\d\x7b4\x7d\\b"], 9/10, "high"⟩,
   ⟨"email_addresses",
    ["\\b[A-Za-z0-9._%+-]+@[A-Za-z0-9.-]+\\.[A-Z|a-z]\x7b2,\x7d\\b"], 8/10, "medium"⟩,
   ⟨"phone_numbers",
    ["\\b(?:\\+?1[-.\\s]?)?\\(?[0-9]\x7b3\x7d\\)?[-.\\s]?[0-9]\x7b3\x7d[-.\\s]?[0-9]\x7b4\x7d\\b"],
    7/10, "medium"⟩,
   ⟨"api_keys",
    ["sk-[a-zA-Z0-9]\x7b48\x7d", "AKIA[0-9A-Z]\x7b16\x7d", "AIza[0-9A-Za-z-_]\x7b35\x7d"],
    19/20, "critical"⟩,
   ⟨"passwords",
    ["password\\s*[:=]\\s*[^\\s]+", "pwd\\s*[:=]\\s*[^\\s]+", "pass\\s*[:=]\\s*[^\\s]+"],
    7/10, "high"⟩]

/-- The per-family detection loop shared by the four regex detectors
(`_detect_prompt_injection`, `_detect_jailbreak_attempts`,
`_detect_data_exfiltration`, `_detect_sensitive_data`): one threat per
matching pattern, carrying the family's fixed confidence and severity.
`search` abstracts `re.search`/`re.findall` with `re.IGNORECASE` (the
per-detector lowercasing of the subject is absorbed by the
case-insensitive oracle; `findall` vs `search` differs only in the
elided excerpt fields). -/
def detectFamily (category : String) (families : List PatternFamily)
    (search : String → String → Bool) (content : String) : List Threat :=
  families.flatMap (fun fam =>
    (fam.patterns.filter (fun pat => search pat content)).map (fun _ =>
      Threat.mk category fam.name fam.confidence fam.severity))

/-- Accumulator-based word splitter. -/
def wordsAux : List Char → List Char → List String
  | [], acc => if acc.isEmpty then [] else [String.mk acc.reverse]
  | c :: rest, acc =>
    if c.isWhitespace then
      if acc.isEmpty then wordsAux rest []
      else String.mk acc.reverse :: wordsAux rest []
    else wordsAux rest (c :: acc)

/-- Python `content.split()`: split on whitespace runs, no empty
words. -/
def pyWords (s : String) : List String := wordsAux s.toList []

/-- Python `max(word_counts.values())`: the highest multiplicity of any
word. -/
def maxWordRepetition (words : List String) : ℕ :=
  (words.map (fun w => words.count w)).foldl max 0

/-- Python `len(set(content))`. -/
def distinctCharCount (s : String) : ℕ := s.toList.eraseDups.length

/-- Embedding of `_detect_adversarial_inputs`: excessive word repetition
(on more than ten words), low character diversity (on more than fifty
characters), and excessive length.  The float thresholds 0.3 and 0.1
are modelled as exact rationals. -/
def detectAdversarialInputs (content : String) : List Threat :=
  (if (pyWords content).length > 10 ∧
      (maxWordRepetition (pyWords content) : ℚ) > ((pyWords content).length : ℚ) * (3/10) then
    [Threat.mk "adversarial_input" "excessive_repetition" (8/10) "medium"]
  else []) ++
  (if (distinctCharCount content : ℚ) < (content.length : ℚ) * (1/10) ∧
      content.length > 50 then
    [Threat.mk "adversarial_input" "low_character_diversity" (7/10) "low"]
  else []) ++
  (if content.length > 50000 then
    [Threat.mk "adversarial_input" "excessive_length" (9/10) "high"]
  else [])

/-- The `severity_scores` table with its `.get(..., 1)` default. -/
def severityScore (s : String) : ℕ :=
  if s = "low" then 1
  else if s = "medium" then 2
  else if s = "high" then 3
  else if s = "critical" then 4
  else 1

/-- Python `max` over a list of naturals (the source only applies it to
nonempty generators). -/
def pyMaxNat : List ℕ → ℕ
  | [] => 0
  | n :: rest => rest.foldl max n

/-- Embedding of `_calculate_threat_severity`: `low` on no threats,
otherwise the first severity name (in the table's insertion order
low, medium, high, critical) whose score equals the maximum score. -/
def calculateThreatSeverity (threats : List Threat) : String :=
  if threats.isEmpty then "low"
  else if 1 = pyMaxNat (threats.map (fun t => severityScore t.severity)) then "low"
  else if 2 = pyMaxNat (threats.map (fun t => severityScore t.severity)) then "medium"
  else if 3 = pyMaxNat (threats.map (fun t => severityScore t.severity)) then "high"
  else if 4 = pyMaxNat (threats.map (fun t => severityScore t.severity)) then "critical"
  else "low"

/-- The count of medium-severity threats recomputed inside the blocking
loop. -/
def countMediumThreats (threats : List Threat) : ℕ :=
  (threats.filter (fun t => t.severity == "medium")).length

/-- The per-threat loop of `_should_block_request`, with the
whole-list medium count fixed as in the source. -/
def shouldBlockGo (mediumCount : ℕ) : List Threat → Bool
  | [] => false
  | t :: rest =>
    if t.severity = "critical" ∨ t.severity = "high" then true
    else if t.severity = "medium" ∧ 2 ≤ mediumCount then true
    else shouldBlockGo mediumCount rest

/-- Embedding of `_should_block_request`. -/
def shouldBlockRequest (threats : List Threat) : Bool :=
  if threats.isEmpty then false
  else shouldBlockGo (countMediumThreats threats) threats

/-- The scan-result dict of `scan_request` (timestamp, request hash,
identity echo and the `details` sub-dict elided). -/
structure ScanResults where
  threats_detected : List Threat
  severity : String
  blocked : Bool
  deriving DecidableEq, Repr

/-- Embedding of `AISecurityScanner.scan_request`: runs the five
detector families in order, concatenates their threats, and derives the
aggregate severity and blocking decision. -/
def scanRequest (search : String → String → Bool) (content : String) : ScanResults :=
  let threats :=
    detectFamily "prompt_injection" promptInjectionPatterns search content ++
    detectFamily "jailbreak_attempt" jailbreakPatterns search content ++
    detectFamily "data_exfiltration" dataExfiltrationPatterns search content ++
    detectFamily "sensitive_data" sensitiveDataPatterns search content ++
    detectAdversarialInputs content
  ⟨threats, calculateThreatSeverity threats, shouldBlockRequest threats⟩

/-- The accumulator never exceeds a running `foldl max`. -/
theorem init_le_foldl_max (l : List ℕ) : ∀ init, init ≤ l.foldl max init := by
  induction l with
  | nil => intro init; exact le_refl init
  | cons a t ih => intro init; exact le_trans (le_max_left init a) (ih (max init a))

/-- Elements never exceed a running `foldl max`. -/
theorem le_foldl_max (l : List ℕ) : ∀ (init n : ℕ), n ∈ l → n ≤ l.foldl max init := by
  induction l with
  | nil => intro init n hn; exact absurd hn (List.not_mem_nil n)
  | cons a t ih =>
    intro init n hn
    rcases List.mem_cons.mp hn with rfl | hn'
    · exact le_trans (le_max_right init n) (init_le_foldl_max t (max init n))
    · exact ih (max init a) n hn' 

/-- A `foldl max` is either the accumulator or one of the elements. -/
theorem foldl_max_mem (l : List ℕ) : ∀ init, l.foldl max init = init ∨ l.foldl max init ∈ l := by
  induction l with
  | nil => intro init; exact Or.inl rfl
  | cons a t ih =>
    intro init
    rcases ih (max init a) with h | h
    · rcases max_choice init a with hm | hm
      · exact Or.inl (by rw [List.foldl_cons, h, hm])
      · exact Or.inr (by rw [List.foldl_cons, h, hm]; exact List.mem_cons_self ..)
    · exact Or.inr (List.mem_cons_of_mem a h)

/-- The Python maximum of a nonempty list is one of its elements. -/
theorem pyMaxNat_mem (l : List ℕ) (hl : l ≠ []) : pyMaxNat l ∈ l := by
  cases l with
  | nil => exact absurd rfl hl
  | cons a t =>
    rcases foldl_max_mem t a with h | h
    · rw [pyMaxNat, h]; exact List.mem_cons_self ..
    · exact List.mem_cons_of_mem a h

/-- The Python maximum dominates every element. -/
theorem le_pyMaxNat (l : List ℕ) (n : ℕ) (hn : n ∈ l) : n ≤ pyMaxNat l := by
  cases l with
  | nil => exact absurd hn (List.not_mem_nil n)
  | cons a t =>
    rcases List.mem_cons.mp hn with rfl | hn'
    · exact init_le_foldl_max t n
    · exact le_foldl_max t a n hn'

/-- Any threat produced by the family loop takes its severity from its
family entry. -/
theorem detectFamily_severity_mem (category : String) (families : List PatternFamily)
    (search : String → String → Bool) (content : String) (t : Threat)
    (ht : t ∈ detectFamily category families search content) :
    ∃ fam ∈ families, t.severity = fam.severity := by
  simp only [detectFamily, List.mem_flatMap, List.mem_map, List.mem_filter] at ht
  obtain ⟨fam, hfam, pat, hpat, heq⟩ := ht
  exact ⟨fam, hfam, by rw [← heq]⟩

/-- Every threat a scan detects carries one of the four severity names:
the static tables and the adversarial detector only ever attach those. -/
theorem scanRequest_severities (search : String → String → Bool) (content : String) :
    ∀ t ∈ (scanRequest search content).threats_detected,
      t.severity = "low" ∨ t.severity = "medium" ∨ t.severity = "high" ∨
        t.severity = "critical" := by
  intro t ht
  simp only [scanRequest, List.mem_append] at ht
  have hinj : ∀ fam ∈ promptInjectionPatterns, fam.severity = "low" ∨
      fam.severity = "medium" ∨ fam.severity = "high" ∨ fam.severity = "critical" := by
    decide
  have hjb : ∀ fam ∈ jailbreakPatterns, fam.severity = "low" ∨
      fam.severity = "medium" ∨ fam.severity = "high" ∨ fam.severity = "critical" := by
    decide
  have hex : ∀ fam ∈ dataExfiltrationPatterns, fam.severity = "low" ∨
      fam.severity = "medium" ∨ fam.severity = "high" ∨ fam.severity = "critical" := by
    decide
  have hsd : ∀ fam ∈ sensitiveDataPatterns, fam.severity = "low" ∨
      fam.severity = "medium" ∨ fam.severity = "high" ∨ fam.severity = "critical" := by
    decide
  rcases ht with (((h | h) | h) | h) | h
  · obtain ⟨fam, hfam, hsev⟩ := detectFamily_severity_mem _ _ _ _ t h
    rw [hsev]; exact hinj fam hfam
  · obtain ⟨fam, hfam, hsev⟩ := detectFamily_severity_mem _ _ _ _ t h
    rw [hsev]; exact hjb fam hfam
  · obtain ⟨fam, hfam, hsev⟩ := detectFamily_severity_mem _ _ _ _ t h
    rw [hsev]; exact hex fam hfam
  · obtain ⟨fam, hfam, hsev⟩ := detectFamily_severity_mem _ _ _ _ t h
    rw [hsev]; exact hsd fam hfam
  · simp only [detectAdversarialInputs, List.mem_append] at h
    rcases h with (h | h) | h <;> split at h <;>
      simp only [List.mem_singleton, List.not_mem_nil] at h <;>
      first
        | exact absurd h (fun hf => hf)
        | (rw [h]; simp)

/-- On a nonempty threat list with well-formed severities, the aggregate
severity is the severity of a threat whose score dominates all
others. -/
theorem calcSeverity_max (threats : List Threat) (hne : threats ≠ [])
    (hwf : ∀ t ∈ threats, t.severity = "low" ∨ t.severity = "medium" ∨
      t.severity = "high" ∨ t.severity = "critical") :
    ∃ t ∈ threats, calculateThreatSeverity threats = t.severity ∧
      ∀ u ∈ threats, severityScore u.severity ≤ severityScore t.severity := by
  have hmapne : threats.map (fun t => severityScore t.severity) ≠ [] := by
    cases threats with
    | nil => exact absurd rfl hne
    | cons a l => simp
  have hmem := pyMaxNat_mem (threats.map (fun t => severityScore t.severity)) hmapne
  obtain ⟨t0, ht0, hsc⟩ := List.mem_map.mp hmem
  refine ⟨t0, ht0, ?_, fun u hu => ?_⟩
  · unfold calculateThreatSeverity
    rw [if_neg (by simp [List.isEmpty_iff, hne]), ← hsc]
    rcases hwf t0 ht0 with h | h | h | h <;> rw [h] <;> rfl
  · rw [hsc]
    exact le_pyMaxNat _ _ (List.mem_map_of_mem _ hu)

/-- The per-threat blocking loop fires exactly on a critical/high
threat, or on a medium threat when the fixed medium count is at least
two. -/
theorem shouldBlockGo_eq_true_iff (mc : ℕ) (l : List Threat) :
    shouldBlockGo mc l = true ↔
      ∃ t ∈ l, (t.severity = "critical" ∨ t.severity = "high") ∨
        (t.severity = "medium" ∧ 2 ≤ mc) := by
  induction l with
  | nil => simp [shouldBlockGo]
  | cons a l ih =>
    unfold shouldBlockGo
    by_cases h1 : a.severity = "critical" ∨ a.severity = "high"
    · rw [if_pos h1]
      exact iff_of_true rfl ⟨a, List.mem_cons_self .., Or.inl h1⟩
    · rw [if_neg h1]
      by_cases h2 : a.severity = "medium" ∧ 2 ≤ mc
      · rw [if_pos h2]
        exact iff_of_true rfl ⟨a, List.mem_cons_self .., Or.inr h2⟩
      · rw [if_neg h2, ih]
        constructor
        · rintro ⟨t, ht, hc⟩
          exact ⟨t, List.mem_cons_of_mem a ht, hc⟩
        · rintro ⟨t, ht, hc⟩
          rcases List.mem_cons.mp ht with rfl | ht'
          · rcases hc with hc | hc
            · exact absurd hc h1
            · exact absurd hc h2
          · exact ⟨t, ht', hc⟩

/-- Characterization of `_should_block_request`: block exactly when some
threat is critical or high, or at least two threats are medium. -/
theorem shouldBlockRequest_iff (threats : List Threat) :
    shouldBlockRequest threats = true ↔
      (∃ t ∈ threats, t.severity = "critical" ∨ t.severity = "high") ∨
        2 ≤ countMediumThreats threats := by
  unfold shouldBlockRequest
  cases threats with
  | nil => simp [countMediumThreats]
  | cons a l =>
    rw [if_neg (by simp)]
    rw [shouldBlockGo_eq_true_iff]
    constructor
    · rintro ⟨t, ht, hc | hc⟩
      · exact Or.inl ⟨t, ht, hc⟩
      · exact Or.inr hc.2
    · rintro (⟨t, ht, hc⟩ | hc)
      · exact ⟨t, ht, Or.inl hc⟩
      · have hpos : 0 < ((a :: l).filter (fun t => t.severity == "medium")).length := by
          simp only [countMediumThreats] at hc
          omega
        obtain ⟨t, ht⟩ := List.exists_mem_of_length_pos hpos
        have hmf := List.mem_filter.mp ht
        exact ⟨t, hmf.1, Or.inr ⟨by simpa using hmf.2, hc⟩⟩

/-- C8: for every scanned request content (and any regex oracle), the
aggregate severity of the security scan equals the maximum individual
severity among its detected threats (`low` when there are none), and the
`blocked` flag is true exactly when some detected threat has severity
`critical` or `high`, or at least two detected threats have severity
`medium`. -/
theorem scan_severity_and_block_rule (search : String → String → Bool) (content : String) :
    ((scanRequest search content).threats_detected = [] →
      (scanRequest search content).severity = "low") ∧
    ((scanRequest search content).threats_detected ≠ [] →
      ∃ t ∈ (scanRequest search content).threats_detected,
        (scanRequest search content).severity = t.severity ∧
        ∀ u ∈ (scanRequest search content).threats_detected,
          severityScore u.severity ≤ severityScore t.severity) ∧
    ((scanRequest search content).blocked = true ↔
      (∃ t ∈ (scanRequest search content).threats_detected,
          t.severity = "critical" ∨ t.severity = "high") ∨
        2 ≤ countMediumThreats (scanRequest search content).threats_detected) := by
  refine ⟨?_, ?_, ?_⟩
  · intro h
    show calculateThreatSeverity (scanRequest search content).threats_detected = "low"
    rw [h]
    rfl
  · intro hne
    exact calcSeverity_max (scanRequest search content).threats_detected hne
      (scanRequest_severities search content)
  · exact shouldBlockRequest_iff (scanRequest search content).threats_detected

/-- The oracle matching exactly the DAN-style pattern. -/
def danSearch : String → String → Bool := fun pat _ => pat == "do anything now"

/-- Witness for C8 at a concrete input: a content matching only the
DAN-style jailbreak pattern yields one critical threat, an aggregate
severity of `critical` and a blocked scan. -/
theorem scan_severity_and_block_rule_witness :
    scanRequest danSearch "hi" =
      ⟨[⟨"jailbreak_attempt", "dan_style", 19/20, "critical"⟩], "critical", true⟩ ∧
    (∃ t ∈ (scanRequest danSearch "hi").threats_detected,
      (scanRequest danSearch "hi").severity = t.severity ∧
      ∀ u ∈ (scanRequest danSearch "hi").threats_detected,
        severityScore u.severity ≤ severityScore t.severity) ∧
    ((scanRequest danSearch "hi").blocked = true ↔
      (∃ t ∈ (scanRequest danSearch "hi").threats_detected,
          t.severity = "critical" ∨ t.severity = "high") ∨
        2 ≤ countMediumThreats (scanRequest danSearch "hi").threats_detected) := by
  have hwords : pyWords "hi" = ["hi"] := by decide
  have hdist : distinctCharCount "hi" = 2 := by decide
  have hlen : ("hi" : String).length = 2 := by decide
  have hscan : scanRequest danSearch "hi" =
      ⟨[⟨"jailbreak_attempt", "dan_style", 19/20, "critical"⟩], "critical", true⟩ := by
    simp [scanRequest, detectFamily, List.filter, promptInjectionPatterns,
      jailbreakPatterns, dataExfiltrationPatterns, sensitiveDataPatterns,
      detectAdversarialInputs, hwords, hdist, hlen, maxWordRepetition, danSearch,
      calculateThreatSeverity, severityScore, pyMaxNat, shouldBlockRequest, shouldBlockGo,
      countMediumThreats]
  refine ⟨hscan, ?_, ?_⟩
  · refine (scan_severity_and_block_rule danSearch "hi").2.1 ?_
    rw [show (scanRequest danSearch "hi").threats_detected =
      [⟨"jailbreak_attempt", "dan_style", 19/20, "critical"⟩] from
      congrArg ScanResults.threats_detected hscan]
    simp
  · exact (scan_severity_and_block_rule danSearch "hi").2.2

/-- Python `round(x)` ties-to-even (the documented behavior of `round`
on half-way values). -/
def roundHalfEven (x : ℚ) : ℤ :=
  if x - Int.floor x < 1/2 then Int.floor x
  else if x - Int.floor x > 1/2 then Int.floor x + 1
  else if 2 ∣ Int.floor x then Int.floor x else Int.floor x + 1

/-- Python `round(x, ndigits)`.  Python floats are idealized as exact
rationals, so `round` is ties-to-even on the scaled value. -/
def pyRound (x : ℚ) (ndigits : ℕ) : ℚ :=
  (roundHalfEven (x * 10 ^ ndigits) : ℚ) / 10 ^ ndigits

/-- Rounding moves a value by at most one half. -/
theorem roundHalfEven_close (x : ℚ) : |(roundHalfEven x : ℚ) - x| ≤ 1/2 := by
  have h1 : (Int.floor x : ℚ) ≤ x := Int.floor_le x
  have h2 : x < Int.floor x + 1 := Int.lt_floor_add_one x
  unfold roundHalfEven
  split
  next h =>
    rw [abs_sub_comm, abs_of_nonneg (by linarith)]
    linarith
  next h =>
    split
    next h3 =>
      push_cast
      rw [abs_of_nonneg (by linarith)]
      linarith [lt_of_not_le (fun hc => h (lt_of_le_of_ne hc (fun he => by simp [he] at h3)))]
    next h3 =>
      have hf : x - Int.floor x = 1/2 := le_antisymm (le_of_not_lt h3) (le_of_not_lt h)
      split
      · rw [abs_sub_comm, abs_of_nonneg (by linarith)]
        linarith
      · push_cast
        rw [abs_of_nonneg (by linarith)]
        linarith

/-- Rounding to six digits moves a value by at most half an ulp. -/
theorem pyRound_close (x : ℚ) (n : ℕ) : |pyRound x n - x| ≤ 1 / (2 * 10 ^ n) := by
  have h := roundHalfEven_close (x * 10 ^ n)
  have hpos : (0:ℚ) < 10 ^ n := by positivity
  have key : pyRound x n - x = ((roundHalfEven (x * 10 ^ n) : ℚ) - x * 10 ^ n) / 10 ^ n := by
    unfold pyRound
    field_simp
    ring
  have e : (1:ℚ) / (2 * 10 ^ n) = (1/2) / 10 ^ n := by
    ring
  rw [key, abs_div, abs_of_pos hpos, e]
  exact div_le_div_of_nonneg_right h hpos.le

/-- Values at least `1/10000` apart stay strictly ordered after rounding
to six digits. -/
theorem pyRound6_lt_of_gap (x y : ℚ) (h : x + 1/10000 ≤ y) : pyRound x 6 < pyRound y 6 := by
  have h1 := pyRound_close x 6
  have h2 := pyRound_close y 6
  rw [abs_le] at h1 h2
  have e : (1:ℚ) / (2 * 10 ^ (6:ℕ)) = 1/2000000 := by norm_num
  rw [e] at h1 h2
  linarith [h1.1, h1.2, h2.1, h2.2]

/-- The request features consumed by `_predict_for_model` and the
strategy selection, as produced by `FeatureExtractor` (defaults mirror
the extractor's fallbacks). -/
structure Features where
  request_length : ℚ := 0
  complexity_score : ℚ := 3/10
  has_code : ℚ := 0
  has_math : ℚ := 0
  question_type : ℚ := 1/2
  user_quality_preference : ℚ := 7/10
  user_speed_preference : ℚ := 1/2
  user_request_count : ℚ := 0
  openai_avg_quality : ℚ := 3/4
  anthropic_avg_quality : ℚ := 3/4
  openai_avg_latency : ℚ := 3/10
  anthropic_avg_latency : ℚ := 2/5
  deriving DecidableEq, Repr

/-- The prediction dict built by `_predict_for_model`. -/
structure Prediction where
  provider : String
  model : String
  predicted_cost : ℚ
  predicted_quality : ℚ
  predicted_latency_ms : ℚ
  confidence : ℚ
  task_match_score : ℚ
  deriving DecidableEq, Repr

/-- The `base_costs` table (per 1K tokens) with its `.get(model, 0.01)`
default. -/
def baseCost (model : String) : ℚ :=
  if model = "gpt-4" then 3/100
  else if model = "gpt-4-turbo" then 1/100
  else if model = "gpt-3.5-turbo" then 1/500
  else if model = "claude-3-opus-20240229" then 3/200
  else if model = "claude-3-sonnet-20240229" then 3/1000
  else if model = "claude-3-haiku-20240307" then 1/4000
  else 1/100

/-- The `base_quality` table with default 7.5. -/
def baseQuality (model : String) : ℚ :=
  if model = "gpt-4" then 92/10
  else if model = "gpt-4-turbo" then 9
  else if model = "gpt-3.5-turbo" then 75/10
  else if model = "claude-3-opus-20240229" then 9
  else if model = "claude-3-sonnet-20240229" then 85/10
  else if model = "claude-3-haiku-20240307" then 78/10
  else 75/10

/-- The `base_latency` table (milliseconds) with default 1500. -/
def baseLatency (model : String) : ℚ :=
  if model = "gpt-4" then 2500
  else if model = "gpt-4-turbo" then 2000
  else if model = "gpt-3.5-turbo" then 1000
  else if model = "claude-3-opus-20240229" then 3000
  else if model = "claude-3-sonnet-20240229" then 2000
  else if model = "claude-3-haiku-20240307" then 800
  else 1500

/-- Embedding of `_calculate_task_match` (substring tests mirror the
Python `in` operator on model names). -/
def calculateTaskMatch (model : String) (f : Features) : ℚ :=
  let s0 : ℚ := 1/2
  let s1 := if f.has_code > 1/2 then
      (if strContains model "gpt-4" then s0 + 3/10
       else if strContains model "gpt-3.5" then s0 + 1/5
       else s0)
    else s0
  let s2 := if f.has_math > 1/2 then
      (if strContains model "gpt-4" then s1 + 3/10
       else if strContains model "claude-3-opus" then s1 + 1/5
       else s1)
    else s1
  let s3 := if f.question_type > 7/10 then
      (if strContains model "claude" then s2 + 3/10 else s2)
    else s2
  let s4 := if f.complexity_score > 7/10 then
      (if strContains model "gpt-4" ∨ strContains model "claude-3-opus" then s3 + 1/5 else s3)
    else s3
  let s5 := if f.complexity_score < 3/10 then
      (if strContains model "gpt-3.5" ∨ strContains model "haiku" then s4 + 1/5 else s4)
    else s4
  min 1 s5

/-- Embedding of `_predict_for_model`: token estimate from the
(normalized) request length with a floor of 100, cost from the base
table scaled by the complexity multiplier and rounded to six digits,
quality and latency adjusted and blended with per-user historical
figures, confidence saturating at 0.95. -/
def predictForModel (provider model : String) (f : Features) : Prediction :=
  let estimatedTokens := max 100 (f.request_length * 10000)
  let predictedCost := (estimatedTokens / 1000 * baseCost model) *
    (1 + f.complexity_score * (1/2))
  let q0 := baseQuality model
  let q1 := if f.has_code > 1/2 ∧ strContains model "gpt-4" then q0 + 1/2 else q0
  let q2 := if f.has_math > 1/2 ∧ strContains model "gpt-4" then q1 + 3/10 else q1
  let q3 := if f.question_type > 7/10 ∧ strContains model "claude" then q2 + 3/10 else q2
  let q4 := min 10 q3
  let lat1 := baseLatency model * (1 + f.request_length * 2)
  let historicalQuality :=
    if provider = "openai" then f.openai_avg_quality * 10 else f.anthropic_avg_quality * 10
  let historicalLatency :=
    if provider = "openai" then f.openai_avg_latency * 5000 else f.anthropic_avg_latency * 5000
  let q5 := if historicalQuality > 0 then (7/10) * q4 + (3/10) * historicalQuality else q4
  let lat2 := if historicalLatency > 0 then (7/10) * lat1 + (3/10) * historicalLatency else lat1
  let confidence := min (19/20) (1/2 + f.user_request_count * (9/20))
  ⟨provider, model, pyRound predictedCost 6, pyRound q5 2, pyRound lat2 0,
    pyRound confidence 2, calculateTaskMatch model f⟩

/-- The engine's static provider list. -/
def mlProviders : List String := ["openai", "anthropic"]

/-- The engine's static per-provider model lists. -/
def mlModels (provider : String) : List String :=
  if provider = "openai" then ["gpt-4", "gpt-3.5-turbo", "gpt-4-turbo"]
  else if provider = "anthropic" then
    ["claude-3-opus-20240229", "claude-3-sonnet-20240229", "claude-3-haiku-20240307"]
  else []

/-- Embedding of `_predict_all_options`: predictions for every
provider/model pair, in enumeration order. -/
def predictAllOptions (f : Features) : List Prediction :=
  mlProviders.flatMap (fun provider =>
    (mlModels provider).map (fun model => predictForModel provider model f))

/-- Python `min(l, key=...)`: keeps the first element, replacing it only
on a strictly smaller key. -/
def pyMinBy {α : Type} (key : α → ℚ) : List α → Option α
  | [] => none
  | h :: t => some (t.foldl (fun acc x => if key x < key acc then x else acc) h)

/-- Python `max(l, key=...)`. -/
def pyMaxBy {α : Type} (key : α → ℚ) : List α → Option α
  | [] => none
  | h :: t => some (t.foldl (fun acc x => if key x > key acc then x else acc) h)

/-- Embedding of `_select_best_option` for the three pure strategies.
The `balanced` branch mutates every prediction with an in-place weighted
score before taking the maximum; it is outside the scope of the claims
about the `cost` strategy and is not modelled. -/
def selectBestOption (predictions : List Prediction) (strategy : String) :
    Option Prediction :=
  if strategy = "cost" then pyMinBy (fun p => p.predicted_cost) predictions
  else if strategy = "quality" then pyMaxBy (fun p => p.predicted_quality) predictions
  else if strategy = "speed" then pyMinBy (fun p => p.predicted_latency_ms) predictions
  else none

/-- A running fold with the min-by step never exceeds its accumulator's
key. -/
theorem foldl_minBy_le_acc {α : Type} (key : α → ℚ) (l : List α) :
    ∀ acc : α, key (l.foldl (fun a b => if key b < key a then b else a) acc) ≤ key acc := by
  induction l with
  | nil => intro acc; exact le_refl _
  | cons b t ih =>
    intro acc
    refine le_trans (ih _) ?_
    show key (if key b < key acc then b else acc) ≤ key acc
    by_cases h : key b < key acc
    · rw [if_pos h]; exact le_of_lt h
    · rw [if_neg h]

/-- A running fold with the min-by step is at most every element's
key. -/
theorem foldl_minBy_le_mem {α : Type} (key : α → ℚ) (l : List α) :
    ∀ (acc : α) (x : α), x ∈ l →
      key (l.foldl (fun a b => if key b < key a then b else a) acc) ≤ key x := by
  induction l with
  | nil => intro acc x hx; exact absurd hx (List.not_mem_nil x)
  | cons b t ih =>
    intro acc x hx
    rcases List.mem_cons.mp hx with rfl | hx'
    · refine le_trans (foldl_minBy_le_acc key t _) ?_
      show key (if key x < key acc then x else acc) ≤ key x
      by_cases h : key x < key acc
      · rw [if_pos h]
      · rw [if_neg h]; exact le_of_not_lt h
    · exact ih _ x hx'

/-- A running fold with the min-by step yields the accumulator or an
element. -/
theorem foldl_minBy_mem {α : Type} (key : α → ℚ) (l : List α) :
    ∀ acc : α, l.foldl (fun a b => if key b < key a then b else a) acc = acc ∨
      l.foldl (fun a b => if key b < key a then b else a) acc ∈ l := by
  induction l with
  | nil => intro acc; exact Or.inl rfl
  | cons b t ih =>
    intro acc
    rcases ih (if key b < key acc then b else acc) with h | h
    · rw [List.foldl_cons, h]
      by_cases hb : key b < key acc
      · rw [if_pos hb]; exact Or.inr (List.mem_cons_self ..)
      · rw [if_neg hb]; exact Or.inl rfl
    · exact Or.inr (List.mem_cons_of_mem b h)

/-- Python `min(l, key=...)` on a nonempty list returns an element whose
key is the global minimum. -/
theorem pyMinBy_spec {α : Type} (key : α → ℚ) (l : List α) (hne : l ≠ []) :
    ∃ m, pyMinBy key l = some m ∧ m ∈ l ∧ ∀ x ∈ l, key m ≤ key x := by
  cases l with
  | nil => exact absurd rfl hne
  | cons hd t =>
    refine ⟨t.foldl (fun a b => if key b < key a then b else a) hd, rfl, ?_, ?_⟩
    · rcases foldl_minBy_mem key t hd with he | he
      · rw [he]; exact List.mem_cons_self ..
      · exact List.mem_cons_of_mem hd he
    · intro x hx
      rcases List.mem_cons.mp hx with heq | hx'
      · rw [heq]
        exact foldl_minBy_le_acc key t hd
      · exact foldl_minBy_le_mem key t hd x hx'

/-- The six predictions, in the engine's enumeration order. -/
theorem predictAllOptions_eq (f : Features) :
    predictAllOptions f =
      [predictForModel "openai" "gpt-4" f,
       predictForModel "openai" "gpt-3.5-turbo" f,
       predictForModel "openai" "gpt-4-turbo" f,
       predictForModel "anthropic" "claude-3-opus-20240229" f,
       predictForModel "anthropic" "claude-3-sonnet-20240229" f,
       predictForModel "anthropic" "claude-3-haiku-20240307" f] := by
  simp [predictAllOptions, mlProviders, mlModels]

/-- The predicted cost in closed form. -/
theorem predictForModel_cost (provider model : String) (f : Features) :
    (predictForModel provider model f).predicted_cost =
      pyRound ((max 100 (f.request_length * 10000) / 1000 * baseCost model) *
        (1 + f.complexity_score * (1/2))) 6 := rfl

/-- The conclusion of the cost-strategy claim for a feature vector: the
selected option attains the global minimum predicted cost over all
options, and distinct options never share a predicted cost — so the
claim's lexicographic tie-break clause is vacuously satisfied (its
antecedent, two options with equal minimum cost, cannot occur). -/
def costMinSpec (f : Features) : Prop :=
  ∃ best, selectBestOption (predictAllOptions f) "cost" = some best ∧
    best ∈ predictAllOptions f ∧
    (∀ p ∈ predictAllOptions f, best.predicted_cost ≤ p.predicted_cost) ∧
    (∀ p ∈ predictAllOptions f, ∀ q ∈ predictAllOptions f,
      p.predicted_cost = q.predicted_cost → p = q)

/-- C5: under the `cost` strategy the routing engine returns the option
whose predicted cost is the global minimum over all options (the engine
considers all six static options; it applies no eligibility filter), and
two distinct options never have equal predicted costs — the base costs
pairwise differ by at least $0.001/1K tokens, the shared scale factor is
at least 0.1, and six-digit rounding cannot collapse a gap of at least
$0.0001 — so the tie-break clause of the claim holds vacuously.  The
hypothesis `0 ≤ complexity_score` is guaranteed by the feature
extractor, whose complexity score lies in [0.3, 1]. -/
theorem cost_strategy_selects_global_min (f : Features)
    (hcs : 0 ≤ f.complexity_score) : costMinSpec f := by
  have hne : predictAllOptions f ≠ [] := by
    rw [predictAllOptions_eq]
    simp
  obtain ⟨m, hsel, hmem, hle⟩ :=
    pyMinBy_spec (fun p => p.predicted_cost) (predictAllOptions f) hne
  have hT : (100:ℚ) ≤ max 100 (f.request_length * 10000) := le_max_left _ _
  have hmul : (1:ℚ) ≤ 1 + f.complexity_score * (1/2) := by linarith
  have gap : ∀ b1 b2 : ℚ, b1 + 1/1000 ≤ b2 →
      pyRound ((max 100 (f.request_length * 10000) / 1000 * b1) *
        (1 + f.complexity_score * (1/2))) 6 <
      pyRound ((max 100 (f.request_length * 10000) / 1000 * b2) *
        (1 + f.complexity_score * (1/2))) 6 := by
    intro b1 b2 hb
    apply pyRound6_lt_of_gap
    have h1 : (1:ℚ)/10 ≤ max 100 (f.request_length * 10000) / 1000 := by linarith
    have h2 : (1:ℚ)/1000 ≤ b2 - b1 := by linarith
    have h3 : (1:ℚ)/10 * (1/1000) ≤
        (max 100 (f.request_length * 10000) / 1000) * (b2 - b1) := by
      apply mul_le_mul h1 h2 (by norm_num) (by linarith)
    have h4 : (max 100 (f.request_length * 10000) / 1000) * (b2 - b1) ≤
        (max 100 (f.request_length * 10000) / 1000) * (b2 - b1) *
          (1 + f.complexity_score * (1/2)) := by
      nlinarith
    nlinarith
  have hbg4 : baseCost "gpt-4" = 3/100 := by simp [baseCost]
  have hb35 : baseCost "gpt-3.5-turbo" = 1/500 := by simp [baseCost]
  have hbtu : baseCost "gpt-4-turbo" = 1/100 := by simp [baseCost]
  have hbop : baseCost "claude-3-opus-20240229" = 3/200 := by simp [baseCost]
  have hbso : baseCost "claude-3-sonnet-20240229" = 3/1000 := by simp [baseCost]
  have hbha : baseCost "claude-3-haiku-20240307" = 1/4000 := by simp [baseCost]
  have h_hf : (predictForModel "anthropic" "claude-3-haiku-20240307" f).predicted_cost <
      (predictForModel "openai" "gpt-3.5-turbo" f).predicted_cost := by
    rw [predictForModel_cost, predictForModel_cost, hbha, hb35]
    exact gap _ _ (by norm_num)
  have h_fs : (predictForModel "openai" "gpt-3.5-turbo" f).predicted_cost <
      (predictForModel "anthropic" "claude-3-sonnet-20240229" f).predicted_cost := by
    rw [predictForModel_cost, predictForModel_cost, hb35, hbso]
    exact gap _ _ (by norm_num)
  have h_st : (predictForModel "anthropic" "claude-3-sonnet-20240229" f).predicted_cost <
      (predictForModel "openai" "gpt-4-turbo" f).predicted_cost := by
    rw [predictForModel_cost, predictForModel_cost, hbso, hbtu]
    exact gap _ _ (by norm_num)
  have h_to : (predictForModel "openai" "gpt-4-turbo" f).predicted_cost <
      (predictForModel "anthropic" "claude-3-opus-20240229" f).predicted_cost := by
    rw [predictForModel_cost, predictForModel_cost, hbtu, hbop]
    exact gap _ _ (by norm_num)
  have h_og : (predictForModel "anthropic" "claude-3-opus-20240229" f).predicted_cost <
      (predictForModel "openai" "gpt-4" f).predicted_cost := by
    rw [predictForModel_cost, predictForModel_cost, hbop, hbg4]
    exact gap _ _ (by norm_num)
  have h_hs := h_hf.trans h_fs
  have h_ht := h_hs.trans h_st
  have h_ho := h_ht.trans h_to
  have h_hg := h_ho.trans h_og
  have h_ft := h_fs.trans h_st
  have h_fo := h_ft.trans h_to
  have h_fg := h_fo.trans h_og
  have h_so := h_st.trans h_to
  have h_sg := h_so.trans h_og
  have h_tg := h_to.trans h_og
  have huniq : ∀ p ∈ predictAllOptions f, ∀ q ∈ predictAllOptions f,
      p.predicted_cost = q.predicted_cost → p = q := by
    intro p hp q hq heq
    rw [predictAllOptions_eq] at hp hq
    simp only [List.mem_cons, List.not_mem_nil, or_false] at hp hq
    rcases hp with rfl | rfl | rfl | rfl | rfl | rfl <;>
      rcases hq with rfl | rfl | rfl | rfl | rfl | rfl
    · rfl
    · exact absurd heq (Ne.symm (ne_of_lt h_fg))
    · exact absurd heq (Ne.symm (ne_of_lt h_tg))
    · exact absurd heq (Ne.symm (ne_of_lt h_og))
    · exact absurd heq (Ne.symm (ne_of_lt h_sg))
    · exact absurd heq (Ne.symm (ne_of_lt h_hg))
    · exact absurd heq (ne_of_lt h_fg)
    · rfl
    · exact absurd heq (ne_of_lt h_ft)
    · exact absurd heq (ne_of_lt h_fo)
    · exact absurd heq (ne_of_lt h_fs)
    · exact absurd heq (Ne.symm (ne_of_lt h_hf))
    · exact absurd heq (ne_of_lt h_tg)
    · exact absurd heq (Ne.symm (ne_of_lt h_ft))
    · rfl
    · exact absurd heq (ne_of_lt h_to)
    · exact absurd heq (Ne.symm (ne_of_lt h_st))
    · exact absurd heq (Ne.symm (ne_of_lt h_ht))
    · exact absurd heq (ne_of_lt h_og)
    · exact absurd heq (Ne.symm (ne_of_lt h_fo))
    · exact absurd heq (Ne.symm (ne_of_lt h_to))
    · rfl
    · exact absurd heq (Ne.symm (ne_of_lt h_so))
    · exact absurd heq (Ne.symm (ne_of_lt h_ho))
    · exact absurd heq (ne_of_lt h_sg)
    · exact absurd heq (Ne.symm (ne_of_lt h_fs))
    · exact absurd heq (ne_of_lt h_st)
    · exact absurd heq (ne_of_lt h_so)
    · rfl
    · exact absurd heq (Ne.symm (ne_of_lt h_hs))
    · exact absurd heq (ne_of_lt h_hg)
    · exact absurd heq (ne_of_lt h_hf)
    · exact absurd heq (ne_of_lt h_ht)
    · exact absurd heq (ne_of_lt h_ho)
    · exact absurd heq (ne_of_lt h_hs)
    · rfl
  have hcost : selectBestOption (predictAllOptions f) "cost" =
      pyMinBy (fun p => p.predicted_cost) (predictAllOptions f) := by
    simp [selectBestOption]
  exact ⟨m, hcost.trans hsel, hmem, hle, huniq⟩

/-- Witness for C5 at the default feature vector. -/
theorem cost_strategy_selects_global_min_witness :
    0 ≤ ({} : Features).complexity_score ∧ costMinSpec {} :=
  ⟨by norm_num, cost_strategy_selects_global_min {} (by norm_num)⟩

end Pluto
